import Mathlib

/-!
# OpenRCT2: `TrackDesignAction` and `ScriptExecutionInfo`

A shallow embedding of

* `src/openrct2/actions/TrackDesignAction.cpp` (`TrackDesignAction::Query`,
  `TrackDesignAction::Execute`, the `TrackDesignActionResult` constructors), and
* `src/openrct2/scripting/ScriptEngine.h` (`ScriptExecutionInfo`,
  `ScriptExecutionInfo::PluginScope`).

The collaborators of `TrackDesignAction` that live in other translation units
(`GameActions::ExecuteNested` on the five nested action types, `place_virtual_track`,
`get_ride`, `LocationValid`, the object lookup, the numeric constants) are the fields of
an environment record `Env`.  Every call the action makes to one of the state-changing
collaborators is appended to a trace, so that statements about *which* nested actions
are submitted, with which arguments and in which order, are statements about the value
computed by the embedding.
-/

namespace OpenRCT2

/-! ## Scalar types -/

/-- The type `money32` is a signed 32-bit amount. -/
abbrev money32 := Int
/-- The type `rct_string_id` is an unsigned 16-bit string identifier. -/
abbrev rct_string_id := Nat
/-- The type `ride_id_t` is the index of a ride. -/
abbrev ride_id_t := Nat
/-- The type `ObjectEntryIndex` is the index of a loaded object. -/
abbrev ObjectEntryIndex := Nat
/-- The type `ObjectType` is the kind of a loaded object. -/
abbrev ObjectType := Nat
/-- An `rct_object_entry` identifies an object; only its identity matters here. -/
abbrev rct_object_entry := Nat

/-- The structure `CoordsXYZ`, as used for `Result::Position`. -/
structure CoordsXYZ where
  x : Int
  y : Int
  z : Int
deriving DecidableEq, Repr

/-- The structure `CoordsXYZD`, the location of the action. -/
structure CoordsXYZD where
  x : Int
  y : Int
  z : Int
  direction : Nat
deriving DecidableEq, Repr

namespace GameActions

/-- The enumeration `GameActions::Status`.  The members named in `TrackDesignAction.cpp` are listed;
the remaining members of the enumeration are `Other`. -/
inductive Status where
  | Ok
  | InvalidParameters
  | Disallowed
  | NoFreeElements
  | Unknown
  | Other (code : Nat)
deriving DecidableEq, Repr

end GameActions

/-- The enumeration `ExpenditureType`; only `RideConstruction` is named in the source. -/
inductive ExpenditureType where
  | RideConstruction
  | Other (code : Nat)
deriving DecidableEq, Repr

/-- The class `TrackDesignActionResult`: the fields of `GameActions::Result` that the action reads
or writes, and the extension field `rideIndex`. -/
structure TrackDesignActionResult where
  Error : GameActions.Status
  ErrorTitle : rct_string_id
  ErrorMessage : rct_string_id
  Position : CoordsXYZ
  Cost : money32
  Expenditure : ExpenditureType
  rideIndex : ride_id_t
deriving DecidableEq, Repr

/-! ## The track design and the ride -/

/-- One entry of `TrackDesign::vehicle_colours`. -/
structure rct_vehicle_colour where
  body_colour : Nat
  trim_colour : Nat
deriving DecidableEq, Repr

/-- The fields of `TrackDesign` read by `TrackDesignAction`. -/
structure TrackDesign where
  type : Nat
  vehicle_object : rct_object_entry
  ride_mode : Nat
  number_of_trains : Nat
  number_of_cars_per_train : Nat
  depart_flags : Nat
  min_waiting_time : Nat
  max_waiting_time : Nat
  operation_setting : Nat
  lift_hill_speed : Nat
  num_circuits : Nat
  colour_scheme : Nat
  entrance_style : Nat
  track_spine_colour : List Nat
  track_rail_colour : List Nat
  track_support_colour : List Nat
  vehicle_colours : List rct_vehicle_colour
  vehicle_additional_colour : List Nat
  name : String
deriving DecidableEq, Repr

/-- One entry of `Ride::track_colour`. -/
structure TrackColour where
  main : Nat
  additional : Nat
  supports : Nat
deriving DecidableEq, Repr

/-- One entry of `Ride::vehicle_colours`. -/
structure VehicleColour where
  Body : Nat
  Trim : Nat
  Ternary : Nat
deriving DecidableEq, Repr

/-- The fields of `Ride` that `TrackDesignAction` reads (`id`) or writes directly through
the `Ride*` it holds.  `inspection_interval` is the field written by
`SetToDefaultInspectionInterval`; the two arrays are indexed by position. -/
structure Ride where
  id : ride_id_t
  lifecycle_flags : Nat
  colour_scheme_type : Nat
  entrance_style : Nat
  inspection_interval : Nat
  track_colour : List TrackColour
  vehicle_colours : List VehicleColour
deriving DecidableEq, Repr

/-! ## Nested actions -/

/-- The enumeration `RideSetVehicleType`. -/
inductive RideSetVehicleType where
  | NumTrains
  | NumCarsPerTrain
  | RideEntry
deriving DecidableEq, Repr

/-- The enumeration `RideSetSetting`; the members named in the source. -/
inductive RideSetSetting where
  | Mode
  | Departure
  | MinWaitingTime
  | MaxWaitingTime
  | Operation
  | LiftHillSpeed
  | NumCircuits
deriving DecidableEq, Repr

/-- The action `RideCreateAction(rideType, subType, colour1, colour2)` together with the flags it
holds when it is submitted. -/
structure RideCreateAction where
  rideType : Nat
  subType : ObjectEntryIndex
  colour1 : Nat
  colour2 : Nat
  flags : Nat
deriving DecidableEq, Repr

/-- The action `RideDemolishAction(rideIndex, modifyType)` with its flags. -/
structure RideDemolishAction where
  rideIndex : ride_id_t
  modifyType : Nat
  flags : Nat
deriving DecidableEq, Repr

/-- The action `RideSetVehicleAction(rideIndex, type, value, colour)` with its flags; `colour` is
`none` where the call site leaves the defaulted fourth argument out. -/
structure RideSetVehicleAction where
  rideIndex : ride_id_t
  type : RideSetVehicleType
  value : Nat
  colour : Option Nat
  flags : Nat
deriving DecidableEq, Repr

/-- The action `RideSetNameAction(rideIndex, name)` with its flags. -/
structure RideSetNameAction where
  rideIndex : ride_id_t
  name : String
  flags : Nat
deriving DecidableEq, Repr

/-- One call made by `TrackDesignAction` to a state-changing collaborator, with the
arguments passed and the value observed by the caller. -/
inductive Event where
  | rideCreate (a : RideCreateAction) (error : GameActions.Status) (rideIndex : ride_id_t)
  | rideDemolish (a : RideDemolishAction)
  | rideSetVehicle (a : RideSetVehicleAction)
  | setOperatingSettingNested (rideId : ride_id_t) (setting : RideSetSetting) (value : Nat)
      (flags : Nat)
  | rideSetName (a : RideSetNameAction) (error : GameActions.Status)
  | placeVirtualTrack (ptdOperation : Nat) (placeScenery : Bool) (rideId : ride_id_t)
      (cost : money32)
deriving DecidableEq, Repr

/-! ## The world and the environment -/

/-- The state the action runs in: the simulation state proper (`game`: rides, map,
finance, research, cheats, ...) and the three transient globals that
`TrackDesignAction.cpp` names. -/
structure World (G : Type) where
  game : G
  _currentTrackPieceDirection : Nat
  gGameCommandErrorText : rct_string_id
  _trackDesignPlaceStateSceneryUnavailable : Bool

/-- The constants `TrackDesignAction.cpp` uses and that are declared in headers outside
the source at hand. `gameActionDefaultFlags` is the value of `GameAction::_flags` of an
action on which `SetFlags` was never called; `resultDefaults` holds the values of the
`Result` fields before a constructor stores its arguments. -/
structure Consts where
  STR_NONE : rct_string_id
  STR_RIDE_CONSTRUCTION_CANT_CONSTRUCT_THIS_HERE : rct_string_id
  STR_CANT_CREATE_NEW_RIDE_ATTRACTION : rct_string_id
  MONEY32_UNDEFINED : money32
  OBJECT_ENTRY_INDEX_NULL : ObjectEntryIndex
  PTD_OPERATION_PLACE_QUERY : Nat
  PTD_OPERATION_PLACE : Nat
  PTD_OPERATION_PLACE_GHOST : Nat
  PTD_OPERATION_FLAG_IS_REPLAY : Nat
  GAME_COMMAND_FLAG_APPLY : Nat
  GAME_COMMAND_FLAG_REPLAY : Nat
  GAME_COMMAND_FLAG_GHOST : Nat
  GAME_COMMAND_FLAG_NETWORKED : Nat
  RIDE_MODIFY_DEMOLISH : Nat
  RIDE_LIFECYCLE_NOT_CUSTOM_DESIGN : Nat
  RCT12_NUM_COLOUR_SCHEMES : Nat
  MAX_VEHICLES_PER_RIDE : Nat
  gameActionDefaultFlags : Nat
  resultDefaults : TrackDesignActionResult

/-- The collaborators of `TrackDesignAction`.  Each state-changing one maps the world
before the call to the value the caller observes and the world after the call. -/
structure Env (G : Type) extends Consts where
  LocationValid : World G → CoordsXYZD → Bool
  find_object_in_entry_group : World G → rct_object_entry → Option (ObjectType × ObjectEntryIndex)
  ride_entry_is_invented : World G → ObjectEntryIndex → Bool
  gCheatsIgnoreResearchStatus : World G → Bool
  get_ride : World G → ride_id_t → Option Ride
  ride_get_count : World G → Nat
  ride_get_unused_preset_vehicle_colour : World G → ObjectEntryIndex → Nat
  SetToDefaultInspectionInterval : Ride → Ride
  /-- A write through the `Ride*`: the ride stored under the id is replaced by its image. -/
  updateRide : ride_id_t → (Ride → Ride) → World G → World G
  ExecuteNestedRideCreate : RideCreateAction → World G → (GameActions.Status × ride_id_t) × World G
  ExecuteNestedRideDemolish : RideDemolishAction → World G → World G
  ExecuteNestedRideSetVehicle : RideSetVehicleAction → World G → World G
  ExecuteNestedRideSetName : RideSetNameAction → World G → GameActions.Status × World G
  set_operating_setting_nested : ride_id_t → RideSetSetting → Nat → Nat → World G → World G
  place_virtual_track : TrackDesign → Nat → Bool → ride_id_t → CoordsXYZD → World G → money32 × World G

/-- What a run of `Query` or `Execute` produces: the returned `Result` (for `Execute`,
`none` when the naming loop has not finished within the given number of iterations),
the world afterwards, and the calls made, oldest first. -/
structure Outcome (G : Type) (R : Type) where
  result : R
  world : World G
  trace : List Event

/-! ## `TrackDesignAction` (TrackDesignAction.cpp) -/

/-- The class `TrackDesignAction`: the members `_loc` and `_td`, and the value of `GetFlags()`. -/
structure TrackDesignAction where
  _loc : CoordsXYZD
  _td : TrackDesign
  flags : Nat
deriving DecidableEq, Repr

namespace TrackDesignActionResult

/-- The constructor `TrackDesignActionResult()`: `GameActions::Result(GameActions::Status::Ok, STR_NONE)`.
The two-argument base constructor stores the status and the message. -/
def ctor (c : Consts) : TrackDesignActionResult :=
  { c.resultDefaults with Error := GameActions.Status.Ok, ErrorMessage := c.STR_NONE }

/-- The constructor `TrackDesignActionResult(GameActions::Status error)`. -/
def ctorError (c : Consts) (error : GameActions.Status) : TrackDesignActionResult :=
  { c.resultDefaults with
    Error := error
    ErrorTitle := c.STR_RIDE_CONSTRUCTION_CANT_CONSTRUCT_THIS_HERE
    ErrorMessage := c.STR_NONE }

/-- The constructor `TrackDesignActionResult(GameActions::Status error, rct_string_id title,
rct_string_id message)`. -/
def ctorErrorTitleMessage (c : Consts) (error : GameActions.Status) (title message : rct_string_id) :
    TrackDesignActionResult :=
  { c.resultDefaults with Error := error, ErrorTitle := title, ErrorMessage := message }

/-- The constructor `TrackDesignActionResult(GameActions::Status error, rct_string_id message)`. -/
def ctorErrorMessage (c : Consts) (error : GameActions.Status) (message : rct_string_id) :
    TrackDesignActionResult :=
  { c.resultDefaults with
    Error := error
    ErrorTitle := c.STR_RIDE_CONSTRUCTION_CANT_CONSTRUCT_THIS_HERE
    ErrorMessage := message }

end TrackDesignActionResult

namespace TrackDesignAction

variable {G : Type}

/-- The `Result` both phases start from: `MakeResult()` with `Position` and `Expenditure`
filled in (lines 77-81 and 146-150). -/
def initialResult (c : Consts) (a : TrackDesignAction) : TrackDesignActionResult :=
  { TrackDesignActionResult.ctor c with
    Position := { x := a._loc.x + 16, y := a._loc.y + 16, z := a._loc.z }
    Expenditure := ExpenditureType.RideConstruction }

/-- The `entryIndex` both phases compute from `_td.vehicle_object` (lines 89-101 and
152-164). -/
def entryIndex (env : Env G) (a : TrackDesignAction) (w : World G) : ObjectEntryIndex :=
  match env.find_object_in_entry_group w a._td.vehicle_object with
  | none => env.OBJECT_ENTRY_INDEX_NULL
  | some found =>
    if (!env.ride_entry_is_invented w found.2 && !env.gCheatsIgnoreResearchStatus w) = true then
      env.OBJECT_ENTRY_INDEX_NULL
    else
      found.2

/-- The `RideCreateAction` both phases submit (lines 104-105 and 167-168). -/
def rideCreateAction (env : Env G) (a : TrackDesignAction) (w : World G) : RideCreateAction :=
  { rideType := a._td.type, subType := entryIndex env a w, colour1 := 0, colour2 := 0,
    flags := a.flags }

/-- The `RideDemolishAction` submitted on `ride->id` (lines 132-133 and 215-216). -/
def rideDemolishAction (env : Env G) (a : TrackDesignAction) (ride : Ride) : RideDemolishAction :=
  { rideIndex := ride.id, modifyType := env.RIDE_MODIFY_DEMOLISH, flags := a.flags }

/-- The local variables `cost` and `placeScenery`, the world and the calls made, after a
stretch of placement code. -/
structure Placement (G : Type) where
  cost : money32
  placeScenery : Bool
  world : World G
  trace : List Event

/-- The dry run of both phases (lines 121-129 and 184-192). -/
def dryRun (env : Env G) (a : TrackDesignAction) (ride : Ride) (w : World G) : Placement G :=
  let first := env.place_virtual_track a._td env.PTD_OPERATION_PLACE_QUERY true ride.id a._loc w
  let firstCall := Event.placeVirtualTrack env.PTD_OPERATION_PLACE_QUERY true ride.id first.1
  if first.2._trackDesignPlaceStateSceneryUnavailable = true then
    let second :=
      env.place_virtual_track a._td env.PTD_OPERATION_PLACE_QUERY false ride.id a._loc first.2
    { cost := second.1, placeScenery := false, world := second.2
      trace := [firstCall, Event.placeVirtualTrack env.PTD_OPERATION_PLACE_QUERY false ride.id second.1] }
  else
    { cost := first.1, placeScenery := true, world := first.2, trace := [firstCall] }

/-- The `uint8_t operation` of the durable placement (lines 196-208). -/
def operation (c : Consts) (flags : Nat) : Nat :=
  let operation :=
    if flags &&& c.GAME_COMMAND_FLAG_GHOST ≠ 0 then c.PTD_OPERATION_PLACE_GHOST
    else c.PTD_OPERATION_PLACE
  if flags &&& c.GAME_COMMAND_FLAG_REPLAY ≠ 0 then
    (operation ||| c.PTD_OPERATION_FLAG_IS_REPLAY) % 256
  else
    operation

/-- The durable placement of `Execute` (lines 194-210), continuing from the dry run. -/
def durablePlace (env : Env G) (a : TrackDesignAction) (ride : Ride) (p : Placement G) :
    Placement G :=
  if p.cost ≠ env.MONEY32_UNDEFINED then
    let placed :=
      env.place_virtual_track a._td (operation env.toConsts a.flags) p.placeScenery ride.id a._loc
        p.world
    { cost := placed.1, placeScenery := p.placeScenery, world := placed.2
      trace := p.trace ++
        [Event.placeVirtualTrack (operation env.toConsts a.flags) p.placeScenery ride.id placed.1] }
  else
    p

/-- The method `TrackDesignAction::Query` (lines 75-142). -/
def Query (env : Env G) (a : TrackDesignAction) (w0 : World G) :
    Outcome G TrackDesignActionResult :=
  let res := initialResult env.toConsts a
  let w := { w0 with _currentTrackPieceDirection := a._loc.direction }
  if env.LocationValid w a._loc = false then
    { result := TrackDesignActionResult.ctorError env.toConsts GameActions.Status.InvalidParameters
      world := w, trace := [] }
  else
    let r := env.ExecuteNestedRideCreate (rideCreateAction env a w) w
    let rideIndex := r.1.2
    let created := [Event.rideCreate (rideCreateAction env a w) r.1.1 rideIndex]
    if r.1.1 ≠ GameActions.Status.Ok then
      { result := TrackDesignActionResult.ctorErrorTitleMessage env.toConsts
          GameActions.Status.NoFreeElements env.STR_CANT_CREATE_NEW_RIDE_ATTRACTION env.STR_NONE
        world := r.2, trace := created }
    else
      match env.get_ride r.2 rideIndex with
      | none =>
        { result := TrackDesignActionResult.ctorError env.toConsts GameActions.Status.Unknown
          world := r.2, trace := created }
      | some ride =>
        let p := dryRun env a ride r.2
        let error_reason := p.world.gGameCommandErrorText
        let gameAction := rideDemolishAction env a ride
        let w' := env.ExecuteNestedRideDemolish gameAction p.world
        let calls := created ++ p.trace ++ [Event.rideDemolish gameAction]
        if p.cost = env.MONEY32_UNDEFINED then
          { result := TrackDesignActionResult.ctorErrorMessage env.toConsts
              GameActions.Status.Disallowed error_reason
            world := w', trace := calls }
        else
          { result := { res with Cost := p.cost }, world := w', trace := calls }

/-- A call `set_operating_setting_nested(rideId, setting, value, flags)`, recorded. -/
def setOperatingSetting (env : Env G) (rideId : ride_id_t) (setting : RideSetSetting) (value : Nat)
    (flags : Nat) (s : World G × List Event) : World G × List Event :=
  (env.set_operating_setting_nested rideId setting value flags s.1,
   s.2 ++ [Event.setOperatingSettingNested rideId setting value flags])

/-- A call of `GameActions::ExecuteNested` on a `RideSetVehicleAction`, recorded. -/
def setVehicle (env : Env G) (act : RideSetVehicleAction) (s : World G × List Event) :
    World G × List Event :=
  (env.ExecuteNestedRideSetVehicle act s.1, s.2 ++ [Event.rideSetVehicle act])

/-- The vehicle and operating-setting steps of `Execute` (lines 222-248); `entryIndex` is
the local computed at the top of `Execute`. -/
def configureRide (env : Env G) (a : TrackDesignAction) (entryIndex : ObjectEntryIndex)
    (ride : Ride) (w : World G) : World G × List Event :=
  let s0 : World G × List Event :=
    if entryIndex ≠ env.OBJECT_ENTRY_INDEX_NULL then
      setVehicle env
        { rideIndex := ride.id, type := RideSetVehicleType.RideEntry, value := entryIndex
          colour := some (env.ride_get_unused_preset_vehicle_colour w entryIndex)
          flags := env.gameActionDefaultFlags } (w, [])
    else
      (w, [])
  let s1 := setOperatingSetting env ride.id RideSetSetting.Mode a._td.ride_mode
    env.GAME_COMMAND_FLAG_APPLY s0
  let s2 := setVehicle env
    { rideIndex := ride.id, type := RideSetVehicleType.NumTrains, value := a._td.number_of_trains
      colour := none, flags := env.gameActionDefaultFlags } s1
  let s3 := setVehicle env
    { rideIndex := ride.id, type := RideSetVehicleType.NumCarsPerTrain
      value := a._td.number_of_cars_per_train, colour := none
      flags := env.gameActionDefaultFlags } s2
  let s4 := setOperatingSetting env ride.id RideSetSetting.Departure a._td.depart_flags
    env.GAME_COMMAND_FLAG_APPLY s3
  let s5 := setOperatingSetting env ride.id RideSetSetting.MinWaitingTime a._td.min_waiting_time
    env.GAME_COMMAND_FLAG_APPLY s4
  let s6 := setOperatingSetting env ride.id RideSetSetting.MaxWaitingTime a._td.max_waiting_time
    env.GAME_COMMAND_FLAG_APPLY s5
  let s7 := setOperatingSetting env ride.id RideSetSetting.Operation a._td.operation_setting
    env.GAME_COMMAND_FLAG_APPLY s6
  let s8 := setOperatingSetting env ride.id RideSetSetting.LiftHillSpeed
    (a._td.lift_hill_speed &&& 0x1F) env.GAME_COMMAND_FLAG_APPLY s7
  let num_circuits := if a._td.num_circuits = 0 then 1 else a._td.num_circuits
  setOperatingSetting env ride.id RideSetSetting.NumCircuits num_circuits
    env.GAME_COMMAND_FLAG_APPLY s8

/-- The body of the track-colour loop (lines 257-259) for one `i`. -/
def copyTrackColour (td : TrackDesign) (ride : Ride) (i : Nat) : Ride :=
  { ride with
    track_colour := ride.track_colour.set i
      { main := td.track_spine_colour.getD i 0
        additional := td.track_rail_colour.getD i 0
        supports := td.track_support_colour.getD i 0 } }

/-- The local `tdIndex` of the vehicle-colour loop (line 264):
`std::min(i, std::size(_td.vehicle_colours) - 1)` in `size_t` arithmetic. -/
def tdIndex (td : TrackDesign) (i : Nat) : Nat :=
  min i ((td.vehicle_colours.length + 2 ^ 64 - 1) % 2 ^ 64)

/-- The body of the vehicle-colour loop (lines 264-267) for one `i`. -/
def copyVehicleColour (td : TrackDesign) (ride : Ride) (i : Nat) : Ride :=
  { ride with
    vehicle_colours := ride.vehicle_colours.set i
      { Body := (td.vehicle_colours.getD (tdIndex td i) { body_colour := 0, trim_colour := 0 }).body_colour
        Trim := (td.vehicle_colours.getD (tdIndex td i) { body_colour := 0, trim_colour := 0 }).trim_colour
        Ternary := td.vehicle_additional_colour.getD (tdIndex td i) 0 } }

/-- The writes made through the `Ride*` (lines 249-268), as a function of the ride. -/
def applyDesign (env : Env G) (a : TrackDesignAction) (ride : Ride) : Ride :=
  let r0 := env.SetToDefaultInspectionInterval ride
  let r1 : Ride :=
    { r0 with
      lifecycle_flags := r0.lifecycle_flags ||| env.RIDE_LIFECYCLE_NOT_CUSTOM_DESIGN
      colour_scheme_type := a._td.colour_scheme
      entrance_style := a._td.entrance_style }
  let r2 := (List.range env.RCT12_NUM_COLOUR_SCHEMES).foldl (copyTrackColour a._td) r1
  (List.range (env.MAX_VEHICLES_PER_RIDE + 1)).foldl (copyVehicleColour a._td) r2

/-- The local `name` of the naming loop (line 272). -/
def rideName (a : TrackDesignAction) (count : Nat) : String :=
  if count = 1 then a._td.name else a._td.name ++ " " ++ toString count

/-- The `RideSetNameAction` submitted in the iteration `count` (lines 273-274). -/
def rideSetNameAction (a : TrackDesignAction) (rideId : ride_id_t) (count : Nat) :
    RideSetNameAction :=
  { rideIndex := rideId, name := rideName a count, flags := a.flags }

/-- The naming loop (lines 270-276), entered with the loop variable `count` and the
status `r` of the last nested result.  At most `fuel` iterations are run; `result` tells
whether the loop condition was found false, that is whether the loop was left.  `count`
is an `int32_t` in the source and is modelled without overflow, which is exact for the
first `2^31 - 2` iterations. -/
def nameLoop (env : Env G) (a : TrackDesignAction) (rideId : ride_id_t) :
    Nat → Nat → GameActions.Status → World G → Outcome G Bool
  | 0, count, r, w =>
    if count = 1 ∨ r ≠ GameActions.Status.Ok then { result := false, world := w, trace := [] }
    else { result := true, world := w, trace := [] }
  | fuel + 1, count, r, w =>
    if count = 1 ∨ r ≠ GameActions.Status.Ok then
      let r' := env.ExecuteNestedRideSetName (rideSetNameAction a rideId count) w
      let rest := nameLoop env a rideId fuel (count + 1) r'.1 r'.2
      { rest with trace := Event.rideSetName (rideSetNameAction a rideId count) r'.1 :: rest.trace }
    else
      { result := true, world := w, trace := [] }

/-- The method `TrackDesignAction::Execute` (lines 144-280), with at most `fuel` iterations of the
naming loop; `result` is `none` when the loop has not been left by then. -/
def Execute (env : Env G) (fuel : Nat) (a : TrackDesignAction) (w : World G) :
    Outcome G (Option TrackDesignActionResult) :=
  let res := initialResult env.toConsts a
  let r := env.ExecuteNestedRideCreate (rideCreateAction env a w) w
  let rideIndex := r.1.2
  let created := [Event.rideCreate (rideCreateAction env a w) r.1.1 rideIndex]
  if r.1.1 ≠ GameActions.Status.Ok then
    { result := some (TrackDesignActionResult.ctorErrorTitleMessage env.toConsts
        GameActions.Status.NoFreeElements env.STR_CANT_CREATE_NEW_RIDE_ATTRACTION env.STR_NONE)
      world := r.2, trace := created }
  else
    match env.get_ride r.2 rideIndex with
    | none =>
      { result := some (TrackDesignActionResult.ctorError env.toConsts GameActions.Status.Unknown)
        world := r.2, trace := created }
    | some ride =>
      let p := durablePlace env a ride (dryRun env a ride r.2)
      if p.cost = env.MONEY32_UNDEFINED then
        let error_reason := p.world.gGameCommandErrorText
        let gameAction := rideDemolishAction env a ride
        { result := some (TrackDesignActionResult.ctorErrorMessage env.toConsts
            GameActions.Status.Disallowed error_reason)
          world := env.ExecuteNestedRideDemolish gameAction p.world
          trace := created ++ p.trace ++ [Event.rideDemolish gameAction] }
      else
        let c := configureRide env a (entryIndex env a w) ride p.world
        let w' := env.updateRide ride.id (applyDesign env a) c.1
        let named := nameLoop env a ride.id fuel 1 r.1.1 w'
        { result :=
            if named.result = true then some { res with Cost := p.cost, rideIndex := ride.id }
            else none
          world := named.world
          trace := created ++ p.trace ++ c.2 ++ named.trace }

end TrackDesignAction

/-! ## Observations on a run

These functions follow the same statements as `Query` and `Execute` up to the point they
name, and return what the claims speak about. -/

namespace TrackDesignAction

variable {G : Type}

/-- The world in which `Query` evaluates `LocationValid` and submits the ride creation:
the world it was called in after line 82. -/
def queryEntry (a : TrackDesignAction) (w : World G) : World G :=
  { w with _currentTrackPieceDirection := a._loc.direction }

/-- The value `ExecuteNested(&rideCreateAction)` gives when submitted in `w`. -/
def created (env : Env G) (a : TrackDesignAction) (w : World G) :
    (GameActions.Status × ride_id_t) × World G :=
  env.ExecuteNestedRideCreate (rideCreateAction env a w) w

/-- The `ride` both phases hold after line 114 (177) when the creation submitted in `w`
succeeded and `get_ride` found the ride; `none` on the two early returns. -/
def createdRide (env : Env G) (a : TrackDesignAction) (w : World G) : Option Ride :=
  if (created env a w).1.1 = GameActions.Status.Ok then
    env.get_ride (created env a w).2 (created env a w).1.2
  else
    none

/-- The cost of the last dry-run placement of `Query` called in `w`, when the dry run is
reached. -/
def queryDryRunCost (env : Env G) (a : TrackDesignAction) (w : World G) : Option money32 :=
  (createdRide env a (queryEntry a w)).map
    fun ride => (dryRun env a ride (created env a (queryEntry a w)).2).cost

/-- The cost of the last dry-run placement of `Execute` called in `w`, when the dry run
is reached. -/
def executeDryRunCost (env : Env G) (a : TrackDesignAction) (w : World G) : Option money32 :=
  (createdRide env a w).map fun ride => (dryRun env a ride (created env a w).2).cost

/-- The cost returned by the durable `place_virtual_track` call of `Execute` (line 209)
called in `w`, when that call is made: the creation succeeded, the ride was found and
the dry run gave a defined cost. -/
def durablePlacementCost (env : Env G) (a : TrackDesignAction) (w : World G) : Option money32 :=
  (createdRide env a w).bind fun ride =>
    if (dryRun env a ride (created env a w).2).cost ≠ env.MONEY32_UNDEFINED then
      some (env.place_virtual_track a._td (operation env.toConsts a.flags)
        (dryRun env a ride (created env a w).2).placeScenery ride.id a._loc
        (dryRun env a ride (created env a w).2).world).1
    else
      none

/-- The world in which `Execute` called in `w` enters the naming loop with `ride`, when
it gets that far (lines 144-268 done, no early return). -/
def namingEntry (env : Env G) (a : TrackDesignAction) (w : World G) : Option (Ride × World G) :=
  (createdRide env a w).bind fun ride =>
    if (durablePlace env a ride (dryRun env a ride (created env a w).2)).cost
        = env.MONEY32_UNDEFINED then
      none
    else
      some (ride, env.updateRide ride.id (applyDesign env a)
        (configureRide env a (entryIndex env a w) ride
          (durablePlace env a ride (dryRun env a ride (created env a w).2)).world).1)

/-- The first dry-run call of both phases (lines 124 and 187), made with scenery. -/
def firstDryRun (env : Env G) (a : TrackDesignAction) (ride : Ride) (w : World G) :
    money32 × World G :=
  env.place_virtual_track a._td env.PTD_OPERATION_PLACE_QUERY true ride.id a._loc w

/-- The first dry run reported the scenery of the design as unavailable: the value of
`_trackDesignPlaceStateSceneryUnavailable` after the first call. -/
def sceneryUnavailable (env : Env G) (a : TrackDesignAction) (ride : Ride) (w : World G) : Bool :=
  (firstDryRun env a ride w).2._trackDesignPlaceStateSceneryUnavailable

/-- The second dry-run call of both phases (lines 128 and 191), made without scenery in
the world the first call left. -/
def secondDryRun (env : Env G) (a : TrackDesignAction) (ride : Ride) (w : World G) :
    money32 × World G :=
  env.place_virtual_track a._td env.PTD_OPERATION_PLACE_QUERY false ride.id a._loc
    (firstDryRun env a ride w).2

/-- The set-name attempts `count`, `count + 1`, ... made from `w` for the ride `rideId`:
the first `n` are refused and the next one is accepted. -/
def AcceptedAfter (env : Env G) (a : TrackDesignAction) (rideId : ride_id_t) :
    Nat → Nat → World G → Prop
  | 0, count, w =>
    (env.ExecuteNestedRideSetName (rideSetNameAction a rideId count) w).1 = GameActions.Status.Ok
  | n + 1, count, w =>
    (env.ExecuteNestedRideSetName (rideSetNameAction a rideId count) w).1 ≠ GameActions.Status.Ok ∧
    AcceptedAfter env a rideId n (count + 1)
      (env.ExecuteNestedRideSetName (rideSetNameAction a rideId count) w).2

end TrackDesignAction

/-! ## Flags -/

/-- The test `(flags & bit) != 0`. -/
def hasFlag (flags bit : Nat) : Bool := flags &&& bit ≠ 0

/-- The flags a nested action holds when it is submitted; `none` for a placement call,
which is not an action. -/
def Event.submittedFlags : Event → Option Nat
  | Event.rideCreate act _ _ => some act.flags
  | Event.rideDemolish act => some act.flags
  | Event.rideSetVehicle act => some act.flags
  | Event.setOperatingSettingNested _ _ _ flags => some flags
  | Event.rideSetName act _ => some act.flags
  | Event.placeVirtualTrack _ _ _ _ => none

/-- The flags `nested` agree with the flags `parent` on replay, ghost and network
origin. -/
def InheritsFlags (c : Consts) (parent nested : Nat) : Prop :=
  (hasFlag nested c.GAME_COMMAND_FLAG_REPLAY = hasFlag parent c.GAME_COMMAND_FLAG_REPLAY) ∧
  (hasFlag nested c.GAME_COMMAND_FLAG_GHOST = hasFlag parent c.GAME_COMMAND_FLAG_GHOST) ∧
  (hasFlag nested c.GAME_COMMAND_FLAG_NETWORKED = hasFlag parent c.GAME_COMMAND_FLAG_NETWORKED)

instance (c : Consts) (parent nested : Nat) : Decidable (InheritsFlags c parent nested) :=
  inferInstanceAs (Decidable (_ ∧ _ ∧ _))

/-- The event is the submission of one of the three actions on which the source calls
`SetFlags(GetFlags())`. -/
def Event.isCreateDemolishOrSetName : Event → Bool
  | Event.rideCreate _ _ _ => true
  | Event.rideDemolish _ => true
  | Event.rideSetName _ _ => true
  | _ => false

/-- The event is a call of `set_operating_setting_nested`. -/
def Event.isSetOperatingSetting : Event → Bool
  | Event.setOperatingSettingNested _ _ _ _ => true
  | _ => false

/-- The event is a placement call. -/
def Event.isPlacement : Event → Bool
  | Event.placeVirtualTrack _ _ _ _ => true
  | _ => false

/-- The event is the submission of a `RideDemolishAction`. -/
def Event.isDemolish : Event → Bool
  | Event.rideDemolish _ => true
  | _ => false

/-- The flags the source gives a nested action where it sets them: the parent's flags on
the ride creation, the ride demolition and the naming (`SetFlags(GetFlags())`), and
`GAME_COMMAND_FLAG_APPLY` on every `set_operating_setting_nested`.  Nothing is said
about a `RideSetVehicleAction`, on which the source never calls `SetFlags`. -/
def FlagsAsWritten (c : Consts) (parent : Nat) : Event → Prop
  | Event.rideCreate act _ _ => act.flags = parent
  | Event.rideDemolish act => act.flags = parent
  | Event.rideSetName act _ => act.flags = parent
  | Event.setOperatingSettingNested _ _ _ flags => flags = c.GAME_COMMAND_FLAG_APPLY
  | Event.rideSetVehicle _ => True
  | Event.placeVirtualTrack _ _ _ _ => True

/-- The event is the submission of a `RideSetNameAction`. -/
def Event.isSetName : Event → Bool
  | Event.rideSetName _ _ => true
  | _ => false

/-- The set-name submissions for the loop variable `count`, `count + 1`, ... in this
order, one for each of the given result statuses. -/
def attemptEvents (a : TrackDesignAction) (rideId : ride_id_t) : Nat → List GameActions.Status →
    List Event
  | _, [] => []
  | count, status :: rest =>
    Event.rideSetName (TrackDesignAction.rideSetNameAction a rideId count) status ::
      attemptEvents a rideId (count + 1) rest

/-- What the source takes for granted about the placement operations: they are bytes,
`PTD_OPERATION_PLACE` and `PTD_OPERATION_PLACE_GHOST` differ, and
`PTD_OPERATION_FLAG_IS_REPLAY` is a non-zero flag with no bit in common with either. -/
def Consts.OperationsApart (c : Consts) : Prop :=
  c.PTD_OPERATION_PLACE < 256 ∧ c.PTD_OPERATION_PLACE_GHOST < 256 ∧
  c.PTD_OPERATION_FLAG_IS_REPLAY < 256 ∧
  c.PTD_OPERATION_PLACE ≠ c.PTD_OPERATION_PLACE_GHOST ∧
  c.PTD_OPERATION_FLAG_IS_REPLAY ≠ 0 ∧
  c.PTD_OPERATION_PLACE &&& c.PTD_OPERATION_FLAG_IS_REPLAY = 0 ∧
  c.PTD_OPERATION_PLACE_GHOST &&& c.PTD_OPERATION_FLAG_IS_REPLAY = 0

/-! ## Contracts of the collaborators

What the claims take for granted about code outside `TrackDesignAction.cpp`, each as a
property of the environment. -/

namespace Env

variable {G : Type}

/-- A nested ride creation that succeeds returns the index of a ride `get_ride` finds. -/
def CreatedRideIsFound (env : Env G) : Prop :=
  ∀ act w, (env.ExecuteNestedRideCreate act w).1.1 = GameActions.Status.Ok →
    (env.get_ride (env.ExecuteNestedRideCreate act w).2
      (env.ExecuteNestedRideCreate act w).1.2).isSome = true

/-- The ride `get_ride` finds under an index has that index as its `id`. -/
def GetRideHasId (env : Env G) : Prop :=
  ∀ w i ride, env.get_ride w i = some ride → ride.id = i

/-- A nested ride creation that succeeds adds one ride. -/
def CreateAddsOneRide (env : Env G) : Prop :=
  ∀ act w, (env.ExecuteNestedRideCreate act w).1.1 = GameActions.Status.Ok →
    env.ride_get_count (env.ExecuteNestedRideCreate act w).2 = env.ride_get_count w + 1

/-- Demolishing a ride that exists removes one ride. -/
def DemolishRemovesOneRide (env : Env G) : Prop :=
  ∀ act w, (env.get_ride w act.rideIndex).isSome = true →
    env.ride_get_count (env.ExecuteNestedRideDemolish act w) + 1 = env.ride_get_count w

/-- The state change `f` removes no ride. -/
def KeepsRides (env : Env G) (f : World G → World G) : Prop :=
  ∀ w i, (env.get_ride w i).isSome = true → (env.get_ride (f w) i).isSome = true

/-- A placement, whatever its operation and outcome, neither adds nor removes a ride. -/
def PlacementKeepsRides (env : Env G) : Prop :=
  ∀ td op placeScenery rideId loc,
    env.KeepsRides (fun w => (env.place_virtual_track td op placeScenery rideId loc w).2) ∧
    ∀ w, env.ride_get_count (env.place_virtual_track td op placeScenery rideId loc w).2
      = env.ride_get_count w

/-- None of the configuration steps of `Execute` removes a ride. -/
structure ConfigurationKeepsRides (env : Env G) : Prop where
  setVehicle : ∀ act, env.KeepsRides (env.ExecuteNestedRideSetVehicle act)
  setSetting : ∀ rideId setting value flags,
    env.KeepsRides (env.set_operating_setting_nested rideId setting value flags)
  update : ∀ rideId f, env.KeepsRides (env.updateRide rideId f)
  setName : ∀ act, env.KeepsRides (fun w => (env.ExecuteNestedRideSetName act w).2)

end Env

/-! ## A sample park

A small concrete environment on which the embedding can be evaluated: rides are kept
newest first, a ride is created while fewer than `maxRides` exist, a placement fails on
a blocked tile, and a name is refused when another ride carries it. -/

namespace Sample

/-- A ride of the sample park with what the nested actions record on it. -/
structure ParkRide where
  ride : Ride
  hasTrack : Bool
  vehicles : List (RideSetVehicleType × Nat)
  settings : List (RideSetSetting × Nat)
deriving DecidableEq, Repr

/-- The simulation state of the sample park. -/
structure Park where
  rides : List ParkRide
  names : List (ride_id_t × String)
  maxRides : Nat
  blocked : List (Int × Int)
  sceneryMissing : Bool
  researched : List ObjectEntryIndex
  ignoreResearch : Bool
deriving DecidableEq, Repr

/-- The constants of the sample park: sample values, pairwise distinct where the source
tells the constants apart. -/
def consts : Consts where
  STR_NONE := 0xFFFF
  STR_RIDE_CONSTRUCTION_CANT_CONSTRUCT_THIS_HERE := 927
  STR_CANT_CREATE_NEW_RIDE_ATTRACTION := 1117
  MONEY32_UNDEFINED := -2147483648
  OBJECT_ENTRY_INDEX_NULL := 0xFFFF
  PTD_OPERATION_PLACE_QUERY := 1
  PTD_OPERATION_PLACE := 2
  PTD_OPERATION_PLACE_GHOST := 4
  PTD_OPERATION_FLAG_IS_REPLAY := 128
  GAME_COMMAND_FLAG_APPLY := 1
  GAME_COMMAND_FLAG_REPLAY := 2
  GAME_COMMAND_FLAG_GHOST := 64
  GAME_COMMAND_FLAG_NETWORKED := 2147483648
  RIDE_MODIFY_DEMOLISH := 0
  RIDE_LIFECYCLE_NOT_CUSTOM_DESIGN := 262144
  RCT12_NUM_COLOUR_SCHEMES := 4
  MAX_VEHICLES_PER_RIDE := 31
  gameActionDefaultFlags := 0
  resultDefaults :=
    { Error := GameActions.Status.Ok, ErrorTitle := 0xFFFF, ErrorMessage := 0xFFFF
      Position := { x := -32768, y := -32768, z := -32768 }, Cost := 0
      Expenditure := ExpenditureType.Other 14, rideIndex := 255 }

/-- Replace the simulation state of a world. -/
def withGame (w : World Park) (g : Park) : World Park := { w with game := g }

/-- Apply `f` to the rides stored under `rideId`; a ride keeps its `id`. -/
def modifyRides (rideId : ride_id_t) (f : ParkRide → ParkRide) (rides : List ParkRide) :
    List ParkRide :=
  rides.map fun r =>
    if r.ride.id = rideId then { f r with ride := { (f r).ride with id := r.ride.id } } else r

/-- Apply `f` to the ride stored under `rideId` in the world. -/
def modify (rideId : ride_id_t) (f : ParkRide → ParkRide) (w : World Park) : World Park :=
  withGame w { w.game with rides := modifyRides rideId f w.game.rides }

/-- One more than the largest ride id in use. -/
def freshId (rides : List ParkRide) : ride_id_t :=
  (rides.map fun r => r.ride.id).foldr max 0 + 1

/-- A newly created ride. -/
def newRide (rideId : ride_id_t) : ParkRide :=
  { ride :=
      { id := rideId, lifecycle_flags := 0, colour_scheme_type := 0, entrance_style := 0
        inspection_interval := 0
        track_colour := List.replicate 4 { main := 0, additional := 0, supports := 0 }
        vehicle_colours := List.replicate 32 { Body := 0, Trim := 0, Ternary := 0 } }
    hasTrack := false, vehicles := [], settings := [] }

/-- Ride creation in the sample park. -/
def rideCreate (_act : RideCreateAction) (w : World Park) :
    (GameActions.Status × ride_id_t) × World Park :=
  if w.game.rides.length < w.game.maxRides then
    ((GameActions.Status.Ok, freshId w.game.rides),
      withGame w { w.game with
        rides := newRide (freshId w.game.rides) :: w.game.rides
        names := (freshId w.game.rides, "") :: w.game.names })
  else
    ((GameActions.Status.NoFreeElements, 255), w)

/-- Ride demolition in the sample park. -/
def rideDemolish (act : RideDemolishAction) (w : World Park) : World Park :=
  withGame w { w.game with
    rides := w.game.rides.eraseP fun r => r.ride.id = act.rideIndex
    names := w.game.names.eraseP fun n => n.1 = act.rideIndex }

/-- The name is carried by a ride other than `rideId`. -/
def nameUsed (w : World Park) (rideId : ride_id_t) (name : String) : Bool :=
  w.game.names.any fun n => n.1 ≠ rideId ∧ n.2 = name

/-- The name recorded for the ride. -/
def nameOf (w : World Park) (rideId : ride_id_t) : String :=
  ((w.game.names.find? fun n => n.1 = rideId).map Prod.snd).getD ""

/-- Ride naming in the sample park. -/
def rideSetName (act : RideSetNameAction) (w : World Park) : GameActions.Status × World Park :=
  if nameUsed w act.rideIndex act.name = true then
    (GameActions.Status.InvalidParameters, w)
  else
    (GameActions.Status.Ok,
      withGame w { w.game with
        names := (act.rideIndex, act.name) ::
          w.game.names.filter fun n => n.1 ≠ act.rideIndex })

/-- Placement in the sample park. -/
def placeVirtualTrack (_td : TrackDesign) (ptdOperation : Nat) (placeScenery : Bool)
    (rideId : ride_id_t) (loc : CoordsXYZD) (w : World Park) : money32 × World Park :=
  if (loc.x, loc.y) ∈ w.game.blocked then
    (consts.MONEY32_UNDEFINED,
      { w with
        gGameCommandErrorText := 1031
        _trackDesignPlaceStateSceneryUnavailable := placeScenery && w.game.sceneryMissing })
  else
    ((if placeScenery = true ∧ w.game.sceneryMissing = false then 750 else 500),
      { (if ptdOperation = consts.PTD_OPERATION_PLACE_QUERY then w
          else modify rideId (fun r => { r with hasTrack := true }) w) with
        _trackDesignPlaceStateSceneryUnavailable := placeScenery && w.game.sceneryMissing })

/-- The sample environment. -/
def env : Env Park where
  toConsts := consts
  LocationValid := fun _ loc => decide (0 ≤ loc.x ∧ loc.x < 8192 ∧ 0 ≤ loc.y ∧ loc.y < 8192)
  find_object_in_entry_group := fun _ entry => if entry < 128 then some (0, entry) else none
  ride_entry_is_invented := fun w entryIndex => decide (entryIndex ∈ w.game.researched)
  gCheatsIgnoreResearchStatus := fun w => w.game.ignoreResearch
  get_ride := fun w i => (w.game.rides.find? fun r => r.ride.id = i).map ParkRide.ride
  ride_get_count := fun w => w.game.rides.length
  ride_get_unused_preset_vehicle_colour := fun _ _ => 0
  SetToDefaultInspectionInterval := fun ride => { ride with inspection_interval := 2 }
  updateRide := fun rideId f => modify rideId fun r => { r with ride := f r.ride }
  ExecuteNestedRideCreate := rideCreate
  ExecuteNestedRideDemolish := rideDemolish
  ExecuteNestedRideSetVehicle := fun act =>
    modify act.rideIndex fun r => { r with vehicles := (act.type, act.value) :: r.vehicles }
  ExecuteNestedRideSetName := rideSetName
  set_operating_setting_nested := fun rideId setting value _ =>
    modify rideId fun r => { r with settings := (setting, value) :: r.settings }
  place_virtual_track := placeVirtualTrack

/-- A track design named "Loop". -/
def design : TrackDesign where
  type := 3
  vehicle_object := 7
  ride_mode := 1
  number_of_trains := 2
  number_of_cars_per_train := 4
  depart_flags := 0
  min_waiting_time := 10
  max_waiting_time := 60
  operation_setting := 0
  lift_hill_speed := 5
  num_circuits := 0
  colour_scheme := 0
  entrance_style := 1
  track_spine_colour := [1, 2, 3, 4]
  track_rail_colour := [5, 6, 7, 8]
  track_support_colour := [9, 10, 11, 12]
  vehicle_colours := [{ body_colour := 1, trim_colour := 2 }, { body_colour := 3, trim_colour := 4 }]
  vehicle_additional_colour := [5, 6]
  name := "Loop"

/-- An empty park with room for four rides and one blocked tile. -/
def emptyPark : Park where
  rides := []
  names := []
  maxRides := 4
  blocked := [(64, 64)]
  sceneryMissing := false
  researched := [7]
  ignoreResearch := false

/-- A world around a park. -/
def worldOf (g : Park) : World Park where
  game := g
  _currentTrackPieceDirection := 0
  gGameCommandErrorText := 0xFFFF
  _trackDesignPlaceStateSceneryUnavailable := false

/-- The design placed on a free tile, with the given flags. -/
def actionAt (x y : Int) (flags : Nat) : TrackDesignAction where
  _loc := { x := x, y := y, z := 16, direction := 1 }
  _td := design
  flags := flags

/-- A park that has no room for a ride. -/
def fullPark : Park := { emptyPark with maxRides := 0 }

/-- A park with two rides, named "Loop" and "Loop 2". -/
def loopPark : Park :=
  { emptyPark with rides := [newRide 2, newRide 1], names := [(2, "Loop 2"), (1, "Loop")] }

/-- The ride and the world with which `Execute` of the design on a free tile of
`loopPark` enters the naming loop. -/
def loopEntry : Ride × World Park :=
  (TrackDesignAction.namingEntry env (actionAt 32 32 0) (worldOf loopPark)).getD
    ((newRide 0).ride, worldOf loopPark)

/-- The `Result` of a successful `Execute` of the design on the tile (32, 32), for the
given ride index. -/
def placedResult (rideIndex : ride_id_t) : TrackDesignActionResult :=
  { TrackDesignAction.initialResult consts (actionAt 32 32 0) with
    Cost := 750, rideIndex := rideIndex }

/-- The design with the given vehicle object, placed on the tile (32, 32). -/
def actionWithVehicle (vehicle : rct_object_entry) : TrackDesignAction :=
  { actionAt 32 32 0 with _td := { design with vehicle_object := vehicle } }

/-- The empty park with the ignore-research cheat switched on. -/
def cheatPark : Park := { emptyPark with ignoreResearch := true }

/-- A park in which the scenery of a design is not available. -/
def bareParkWorld : World Park := worldOf { emptyPark with sceneryMissing := true }

/-- The sample environment with a ride naming that refuses every name. -/
def unnameableEnv : Env Park :=
  { env with ExecuteNestedRideSetName := fun _ w => (GameActions.Status.Unknown, w) }

end Sample

/-! ## `ScriptExecutionInfo` (ScriptEngine.h) -/

namespace Scripting

/-- The class `ScriptExecutionInfo`: the current plugin (a `shared_ptr<Plugin>`, any value of `P`)
and the mutability flag. -/
structure ScriptExecutionInfo (P : Type) where
  plugin : P
  isGameStateMutable : Bool
deriving DecidableEq, Repr

/-- The class `ScriptExecutionInfo::PluginScope`: the plugin it was constructed with and the two
backup fields.  The reference `_execInfo` is the state threaded through
`PluginScope.ctor` and `PluginScope.dtor`. -/
structure PluginScope (P : Type) where
  plugin : P
  backupPlugin : P
  backupIsGameStateMutable : Bool
deriving DecidableEq, Repr

/-- The constructor `PluginScope::PluginScope(execInfo, plugin, isGameStateMutable)`. -/
def PluginScope.ctor {P : Type} (execInfo : ScriptExecutionInfo P) (plugin : P)
    (isGameStateMutable : Bool) : PluginScope P × ScriptExecutionInfo P :=
  ({ plugin := plugin
     backupPlugin := execInfo.plugin
     backupIsGameStateMutable := execInfo.isGameStateMutable },
   { plugin := plugin, isGameStateMutable := isGameStateMutable })

/-- The destructor `PluginScope::~PluginScope()`. -/
def PluginScope.dtor {P : Type} (scope : PluginScope P) (_execInfo : ScriptExecutionInfo P) :
    ScriptExecutionInfo P :=
  { plugin := scope.backupPlugin, isGameStateMutable := scope.backupIsGameStateMutable }

/-- The method `ScriptExecutionInfo::GetCurrentPlugin()`. -/
def ScriptExecutionInfo.GetCurrentPlugin {P : Type} (execInfo : ScriptExecutionInfo P) : P :=
  execInfo.plugin

/-- The method `ScriptExecutionInfo::IsGameStateMutable()`. -/
def ScriptExecutionInfo.IsGameStateMutable {P : Type} (execInfo : ScriptExecutionInfo P) : Bool :=
  execInfo.isGameStateMutable

/-- The execution info together with the scopes that are alive, innermost first.
`PluginScope` is not copyable and lives in automatic storage, so the live scopes on one
`ScriptExecutionInfo` form a stack. -/
structure Frames (P : Type) where
  execInfo : ScriptExecutionInfo P
  live : List (PluginScope P)
deriving DecidableEq, Repr

/-- Construct a `PluginScope` inside the scopes already alive. -/
def Frames.enter {P : Type} (f : Frames P) (plugin : P) (isGameStateMutable : Bool) : Frames P :=
  { execInfo := (PluginScope.ctor f.execInfo plugin isGameStateMutable).2
    live := (PluginScope.ctor f.execInfo plugin isGameStateMutable).1 :: f.live }

/-- Destroy the innermost live scope (nothing happens when none is alive). -/
def Frames.leave {P : Type} (f : Frames P) : Frames P :=
  match f.live with
  | [] => f
  | scope :: rest => { execInfo := scope.dtor f.execInfo, live := rest }

/-- Construct scopes one inside another, the head of the list outermost. -/
def Frames.enterAll {P : Type} (f : Frames P) : List (P × Bool) → Frames P
  | [] => f
  | (plugin, isGameStateMutable) :: rest => (f.enter plugin isGameStateMutable).enterAll rest

/-- Destroy the `n` innermost live scopes, innermost first. -/
def Frames.leaveN {P : Type} (f : Frames P) : Nat → Frames P
  | 0 => f
  | n + 1 => f.leave.leaveN n

/-- The pair `(current plugin, mutability)` held by an execution info. -/
def ScriptExecutionInfo.pair {P : Type} (execInfo : ScriptExecutionInfo P) : P × Bool :=
  (execInfo.GetCurrentPlugin, execInfo.IsGameStateMutable)

/-! ## `ScriptInterval` (ScriptEngine.h) -/

/-- The type `IntervalHandle` is `int32_t`. -/
abbrev IntervalHandle := Int

/-- The struct `ScriptInterval`; `P` is the type of `std::shared_ptr<Plugin>` and `V`
the type `DukValue`. -/
structure ScriptInterval (P V : Type) where
  Owner : P
  Handle : IntervalHandle
  Delay : Nat
  LastTimestamp : Int
  Callback : V
  Repeat : Bool

/-- The method `ScriptInterval::IsValid()`. -/
def ScriptInterval.IsValid {P V : Type} (interval : ScriptInterval P V) : Bool :=
  interval.Handle ≠ 0

/-- A default-constructed `ScriptInterval`: the members with a `{}` initialiser are
zero or false; `Owner` and `Callback` are the default-constructed values of their own
types, the null plugin pointer and the default `DukValue`, given as arguments. -/
def ScriptInterval.defaultConstructed {P V : Type} (nullPlugin : P) (defaultValue : V) :
    ScriptInterval P V :=
  { Owner := nullPlugin, Handle := 0, Delay := 0, LastTimestamp := 0, Callback := defaultValue
    Repeat := false }

end Scripting

end OpenRCT2

/-! # Theorems -/

namespace OpenRCT2

/-! ## Case lemmas for `Query` and `Execute` -/

namespace TrackDesignAction

variable {G : Type}

theorem Query_of_invalid (env : Env G) (a : TrackDesignAction) (w : World G)
    (h : env.LocationValid (queryEntry a w) a._loc = false) :
    Query env a w =
      { result := TrackDesignActionResult.ctorError env.toConsts GameActions.Status.InvalidParameters
        world := queryEntry a w, trace := [] } := by
  unfold queryEntry at h
  simp [Query, queryEntry, h]

theorem Query_of_createFailed (env : Env G) (a : TrackDesignAction) (w : World G)
    (h : env.LocationValid (queryEntry a w) a._loc = true)
    (hc : (created env a (queryEntry a w)).1.1 ≠ GameActions.Status.Ok) :
    Query env a w =
      { result := TrackDesignActionResult.ctorErrorTitleMessage env.toConsts
          GameActions.Status.NoFreeElements env.STR_CANT_CREATE_NEW_RIDE_ATTRACTION env.STR_NONE
        world := (created env a (queryEntry a w)).2
        trace := [Event.rideCreate (rideCreateAction env a (queryEntry a w))
          (created env a (queryEntry a w)).1.1 (created env a (queryEntry a w)).1.2] } := by
  unfold created queryEntry at *
  simp [Query, h, hc]

theorem Query_of_notFound (env : Env G) (a : TrackDesignAction) (w : World G)
    (h : env.LocationValid (queryEntry a w) a._loc = true)
    (hc : (created env a (queryEntry a w)).1.1 = GameActions.Status.Ok)
    (hr : env.get_ride (created env a (queryEntry a w)).2 (created env a (queryEntry a w)).1.2
      = none) :
    Query env a w =
      { result := TrackDesignActionResult.ctorError env.toConsts GameActions.Status.Unknown
        world := (created env a (queryEntry a w)).2
        trace := [Event.rideCreate (rideCreateAction env a (queryEntry a w))
          (created env a (queryEntry a w)).1.1 (created env a (queryEntry a w)).1.2] } := by
  unfold created queryEntry at *
  simp [Query, h, hc, hr]

theorem Query_of_found (env : Env G) (a : TrackDesignAction) (w : World G) (ride : Ride)
    (h : env.LocationValid (queryEntry a w) a._loc = true)
    (hc : (created env a (queryEntry a w)).1.1 = GameActions.Status.Ok)
    (hr : env.get_ride (created env a (queryEntry a w)).2 (created env a (queryEntry a w)).1.2
      = some ride) :
    Query env a w =
      { result :=
          if (dryRun env a ride (created env a (queryEntry a w)).2).cost = env.MONEY32_UNDEFINED then
            TrackDesignActionResult.ctorErrorMessage env.toConsts GameActions.Status.Disallowed
              (dryRun env a ride (created env a (queryEntry a w)).2).world.gGameCommandErrorText
          else
            { initialResult env.toConsts a with
              Cost := (dryRun env a ride (created env a (queryEntry a w)).2).cost }
        world := env.ExecuteNestedRideDemolish (rideDemolishAction env a ride)
          (dryRun env a ride (created env a (queryEntry a w)).2).world
        trace := [Event.rideCreate (rideCreateAction env a (queryEntry a w))
            (created env a (queryEntry a w)).1.1 (created env a (queryEntry a w)).1.2]
          ++ (dryRun env a ride (created env a (queryEntry a w)).2).trace
          ++ [Event.rideDemolish (rideDemolishAction env a ride)] } := by
  unfold created queryEntry at *
  by_cases hcost : (dryRun env a ride (env.ExecuteNestedRideCreate
      (rideCreateAction env a { w with _currentTrackPieceDirection := a._loc.direction })
      { w with _currentTrackPieceDirection := a._loc.direction }).2).cost = env.MONEY32_UNDEFINED
  · simp [Query, h, hc, hr, hcost]
  · simp [Query, h, hc, hr, hcost]

theorem Execute_of_createFailed (env : Env G) (fuel : Nat) (a : TrackDesignAction) (w : World G)
    (hc : (created env a w).1.1 ≠ GameActions.Status.Ok) :
    Execute env fuel a w =
      { result := some (TrackDesignActionResult.ctorErrorTitleMessage env.toConsts
          GameActions.Status.NoFreeElements env.STR_CANT_CREATE_NEW_RIDE_ATTRACTION env.STR_NONE)
        world := (created env a w).2
        trace := [Event.rideCreate (rideCreateAction env a w) (created env a w).1.1
          (created env a w).1.2] } := by
  unfold created at *
  simp [Execute, hc]

theorem Execute_of_notFound (env : Env G) (fuel : Nat) (a : TrackDesignAction) (w : World G)
    (hc : (created env a w).1.1 = GameActions.Status.Ok)
    (hr : env.get_ride (created env a w).2 (created env a w).1.2 = none) :
    Execute env fuel a w =
      { result := some (TrackDesignActionResult.ctorError env.toConsts GameActions.Status.Unknown)
        world := (created env a w).2
        trace := [Event.rideCreate (rideCreateAction env a w) (created env a w).1.1
          (created env a w).1.2] } := by
  unfold created at *
  simp [Execute, hc, hr]

theorem Execute_of_placementFailed (env : Env G) (fuel : Nat) (a : TrackDesignAction) (w : World G)
    (ride : Ride) (hc : (created env a w).1.1 = GameActions.Status.Ok)
    (hr : env.get_ride (created env a w).2 (created env a w).1.2 = some ride)
    (hp : (durablePlace env a ride (dryRun env a ride (created env a w).2)).cost
      = env.MONEY32_UNDEFINED) :
    Execute env fuel a w =
      { result := some (TrackDesignActionResult.ctorErrorMessage env.toConsts
          GameActions.Status.Disallowed
          (durablePlace env a ride (dryRun env a ride (created env a w).2)).world.gGameCommandErrorText)
        world := env.ExecuteNestedRideDemolish (rideDemolishAction env a ride)
          (durablePlace env a ride (dryRun env a ride (created env a w).2)).world
        trace := [Event.rideCreate (rideCreateAction env a w) (created env a w).1.1
            (created env a w).1.2]
          ++ (durablePlace env a ride (dryRun env a ride (created env a w).2)).trace
          ++ [Event.rideDemolish (rideDemolishAction env a ride)] } := by
  unfold created at *
  simp [Execute, hc, hr, hp]

theorem Execute_of_placed (env : Env G) (fuel : Nat) (a : TrackDesignAction) (w : World G)
    (ride : Ride) (hc : (created env a w).1.1 = GameActions.Status.Ok)
    (hr : env.get_ride (created env a w).2 (created env a w).1.2 = some ride)
    (hp : (durablePlace env a ride (dryRun env a ride (created env a w).2)).cost
      ≠ env.MONEY32_UNDEFINED) :
    Execute env fuel a w =
      { result :=
          if (nameLoop env a ride.id fuel 1 (created env a w).1.1
              (env.updateRide ride.id (applyDesign env a)
                (configureRide env a (entryIndex env a w) ride
                  (durablePlace env a ride (dryRun env a ride (created env a w).2)).world).1)).result
              = true then
            some { initialResult env.toConsts a with
              Cost := (durablePlace env a ride (dryRun env a ride (created env a w).2)).cost
              rideIndex := ride.id }
          else none
        world := (nameLoop env a ride.id fuel 1 (created env a w).1.1
          (env.updateRide ride.id (applyDesign env a)
            (configureRide env a (entryIndex env a w) ride
              (durablePlace env a ride (dryRun env a ride (created env a w).2)).world).1)).world
        trace := [Event.rideCreate (rideCreateAction env a w) (created env a w).1.1
            (created env a w).1.2]
          ++ (durablePlace env a ride (dryRun env a ride (created env a w).2)).trace
          ++ (configureRide env a (entryIndex env a w) ride
              (durablePlace env a ride (dryRun env a ride (created env a w).2)).world).2
          ++ (nameLoop env a ride.id fuel 1 (created env a w).1.1
              (env.updateRide ride.id (applyDesign env a)
                (configureRide env a (entryIndex env a w) ride
                  (durablePlace env a ride (dryRun env a ride (created env a w).2)).world).1)).trace } := by
  unfold created at *
  simp [Execute, hc, hr, hp]

/-! ## Placement lemmas -/

theorem dryRun_keepsRides (env : Env G) (a : TrackDesignAction) (ride : Ride) (w : World G)
    (hPlace : env.PlacementKeepsRides) :
    (∀ i, (env.get_ride w i).isSome = true → (env.get_ride (dryRun env a ride w).world i).isSome = true) ∧
    env.ride_get_count (dryRun env a ride w).world = env.ride_get_count w := by
  simp only [dryRun]
  split
  · refine ⟨fun i hi => ?_, ?_⟩
    · exact (hPlace _ _ _ _ _).1 _ i ((hPlace _ _ _ _ _).1 _ i hi)
    · rw [(hPlace _ _ _ _ _).2, (hPlace _ _ _ _ _).2]
  · refine ⟨fun i hi => ?_, ?_⟩
    · exact (hPlace _ _ _ _ _).1 _ i hi
    · rw [(hPlace _ _ _ _ _).2]

theorem durablePlace_keepsRides (env : Env G) (a : TrackDesignAction) (ride : Ride)
    (p : Placement G) (hPlace : env.PlacementKeepsRides) :
    (∀ i, (env.get_ride p.world i).isSome = true →
      (env.get_ride (durablePlace env a ride p).world i).isSome = true) ∧
    env.ride_get_count (durablePlace env a ride p).world = env.ride_get_count p.world := by
  simp only [durablePlace]
  split
  · refine ⟨fun i hi => ?_, ?_⟩
    · exact (hPlace _ _ _ _ _).1 _ i hi
    · rw [(hPlace _ _ _ _ _).2]
  · exact ⟨fun i hi => hi, rfl⟩

theorem durablePlace_cost (env : Env G) (a : TrackDesignAction) (ride : Ride) (p : Placement G) :
    (durablePlace env a ride p).cost =
      if p.cost ≠ env.MONEY32_UNDEFINED then
        (env.place_virtual_track a._td (operation env.toConsts a.flags) p.placeScenery ride.id
          a._loc p.world).1
      else p.cost := by
  simp only [durablePlace]
  split <;> rfl

end TrackDesignAction

/-! ## `ScriptExecutionInfo` -/

namespace Scripting

variable {P : Type}

theorem Frames.leave_enter (f : Frames P) (p : P) (m : Bool) : (f.enter p m).leave = f := by
  cases f
  rfl

theorem Frames.enterAll_append (f : Frames P) (xs ys : List (P × Bool)) :
    f.enterAll (xs ++ ys) = (f.enterAll xs).enterAll ys := by
  induction xs generalizing f with
  | nil => rfl
  | cons x xs ih =>
    obtain ⟨p, m⟩ := x
    simp only [List.cons_append, Frames.enterAll]
    exact ih _

theorem Frames.leaveN_succ (f : Frames P) (n : Nat) : f.leaveN (n + 1) = (f.leaveN n).leave := by
  induction n generalizing f with
  | zero => rfl
  | succ n ih =>
    show f.leave.leaveN (n + 1) = _
    rw [ih]
    rfl

theorem Frames.leaveN_enterAll (f : Frames P) (inner : List (P × Bool)) :
    (f.enterAll inner).leaveN inner.length = f := by
  induction inner generalizing f with
  | nil => rfl
  | cons x xs ih =>
    obtain ⟨p, m⟩ := x
    rw [List.length_cons, Frames.leaveN_succ]
    show (((f.enter p m).enterAll xs).leaveN xs.length).leave = f
    rw [ih, Frames.leave_enter]

theorem Frames.execInfo_enterAll (f : Frames P) (scopes : List (P × Bool)) :
    (f.enterAll scopes).execInfo.pair = scopes.getLast?.getD f.execInfo.pair := by
  induction scopes generalizing f with
  | nil => rfl
  | cons x xs ih =>
    obtain ⟨p, m⟩ := x
    show ((f.enter p m).enterAll xs).execInfo.pair = _
    rw [ih]
    cases xs with
    | nil => rfl
    | cons y ys =>
      rw [List.getLast?_cons_cons, List.getLast?_eq_getLast _ (List.cons_ne_nil y ys)]
      rfl

end Scripting

/-! ## The sample park meets the contracts -/

namespace Sample

theorem isSome_find_modifyRides (rideId : ride_id_t) (f : ParkRide → ParkRide)
    (rides : List ParkRide) (i : ride_id_t)
    (h : (rides.find? fun r => r.ride.id = i).isSome = true) :
    ((modifyRides rideId f rides).find? fun r => r.ride.id = i).isSome = true := by
  rw [List.find?_isSome] at h ⊢
  obtain ⟨x, hx, hi⟩ := h
  refine ⟨_, List.mem_map_of_mem _ hx, ?_⟩
  split <;> simpa using hi

theorem keepsRides_modify (rideId : ride_id_t) (f : ParkRide → ParkRide) :
    env.KeepsRides (modify rideId f) := by
  intro w i h
  simp only [env, modify, withGame, Option.isSome_map'] at h ⊢
  exact isSome_find_modifyRides rideId f _ i h

theorem count_modify (rideId : ride_id_t) (f : ParkRide → ParkRide) (w : World Park) :
    env.ride_get_count (modify rideId f w) = env.ride_get_count w := by
  simp [env, modify, withGame, modifyRides]

theorem createdRideIsFound : env.CreatedRideIsFound := by
  intro act w h
  simp only [env, rideCreate] at h ⊢
  split
  · simp [withGame, newRide]
  · rename_i hlt
    simp [hlt] at h

theorem getRideHasId : env.GetRideHasId := by
  intro w i ride h
  simp only [env, Option.map_eq_some'] at h
  obtain ⟨r, hr, rfl⟩ := h
  simpa using List.find?_some hr

theorem createAddsOneRide : env.CreateAddsOneRide := by
  intro act w h
  simp only [env, rideCreate] at h ⊢
  split
  · simp [withGame]
  · rename_i hlt
    simp [hlt] at h

theorem demolishRemovesOneRide : env.DemolishRemovesOneRide := by
  intro act w h
  simp only [env, rideDemolish, withGame, Option.isSome_map'] at h ⊢
  rw [List.find?_isSome] at h
  obtain ⟨x, hx, hp⟩ := h
  rw [List.length_eraseP_of_mem hx hp]
  have : 0 < w.game.rides.length := List.length_pos_of_mem hx
  omega

theorem placeVirtualTrack_game (td : TrackDesign) (op : Nat) (placeScenery : Bool)
    (rideId : ride_id_t) (loc : CoordsXYZD) (w : World Park) :
    (placeVirtualTrack td op placeScenery rideId loc w).2.game = w.game ∨
    (placeVirtualTrack td op placeScenery rideId loc w).2.game
      = (modify rideId (fun r => { r with hasTrack := true }) w).game := by
  unfold placeVirtualTrack
  by_cases hb : (loc.x, loc.y) ∈ w.game.blocked <;>
    by_cases hq : op = consts.PTD_OPERATION_PLACE_QUERY <;> simp [hb, hq]

theorem get_ride_congr (w w' : World Park) (i : ride_id_t) (h : w.game = w'.game) :
    env.get_ride w i = env.get_ride w' i := by
  simp only [env, h]

theorem ride_get_count_congr (w w' : World Park) (h : w.game = w'.game) :
    env.ride_get_count w = env.ride_get_count w' := by
  simp only [env, h]

theorem placementKeepsRides : env.PlacementKeepsRides := by
  intro td op placeScenery rideId loc
  refine ⟨fun w i h => ?_, fun w => ?_⟩
  · show (env.get_ride (placeVirtualTrack td op placeScenery rideId loc w).2 i).isSome = true
    rcases placeVirtualTrack_game td op placeScenery rideId loc w with hg | hg
    · rw [get_ride_congr _ _ i hg]
      exact h
    · rw [get_ride_congr _ _ i hg]
      exact keepsRides_modify rideId _ w i h
  · show env.ride_get_count (placeVirtualTrack td op placeScenery rideId loc w).2 = _
    rcases placeVirtualTrack_game td op placeScenery rideId loc w with hg | hg
    · exact ride_get_count_congr _ _ hg
    · rw [ride_get_count_congr _ _ hg]
      exact count_modify rideId _ w

theorem configurationKeepsRides : env.ConfigurationKeepsRides where
  setVehicle := fun act => keepsRides_modify act.rideIndex _
  setSetting := fun rideId _ _ _ => keepsRides_modify rideId _
  update := fun rideId _ => keepsRides_modify rideId _
  setName := by
    intro act w i h
    simp only [env, rideSetName]
    split
    · exact h
    · exact h

end Sample

/-! ## The claims -/

namespace TrackDesignAction

variable {G : Type}

theorem createdRide_eq_some (env : Env G) (a : TrackDesignAction) (w : World G) (ride : Ride)
    (h : createdRide env a w = some ride) :
    (created env a w).1.1 = GameActions.Status.Ok ∧
    env.get_ride (created env a w).2 (created env a w).1.2 = some ride := by
  unfold createdRide at h
  split at h
  · rename_i hc
    exact ⟨hc, h⟩
  · cases h

/-- C2. When `Execute`'s nested ride creation succeeds and the placement fails (the last
dry run, or the durable placement, returns `MONEY32_UNDEFINED`), the last call `Execute`
makes is the submission of a `RideDemolishAction` on the index the creation returned,
with `RIDE_MODIFY_DEMOLISH` and the parent's flags; it returns status `Disallowed`; and,
the collaborators keeping their contracts (creation adds one ride, placement adds and
removes none, demolition of an existing ride removes one), the number of rides after
the call is the number before it. -/
theorem execute_failed_placement_demolishes (env : Env G) (fuel : Nat) (a : TrackDesignAction)
    (w : World G) (hId : env.GetRideHasId) (hAdd : env.CreateAddsOneRide)
    (hPlace : env.PlacementKeepsRides) (hRemove : env.DemolishRemovesOneRide)
    (hp : executeDryRunCost env a w = some env.MONEY32_UNDEFINED ∨
      durablePlacementCost env a w = some env.MONEY32_UNDEFINED) :
    (created env a w).1.1 = GameActions.Status.Ok ∧
    (∃ calls, (Execute env fuel a w).trace = calls ++
      [Event.rideDemolish
        { rideIndex := (created env a w).1.2, modifyType := env.RIDE_MODIFY_DEMOLISH
          flags := a.flags }]) ∧
    (∃ res, (Execute env fuel a w).result = some res ∧
      res.Error = GameActions.Status.Disallowed) ∧
    env.ride_get_count (Execute env fuel a w).world = env.ride_get_count w := by
  have key : ∃ ride, createdRide env a w = some ride ∧
      (durablePlace env a ride (dryRun env a ride (created env a w).2)).cost
        = env.MONEY32_UNDEFINED := by
    rcases hp with hp | hp
    · simp only [executeDryRunCost, Option.map_eq_some'] at hp
      obtain ⟨ride, hr, hcost⟩ := hp
      exact ⟨ride, hr, by rw [durablePlace_cost]; simp [hcost]⟩
    · simp only [durablePlacementCost, Option.bind_eq_some] at hp
      obtain ⟨ride, hr, hcost⟩ := hp
      refine ⟨ride, hr, ?_⟩
      rw [durablePlace_cost]
      split at hcost
      · rename_i hd
        rw [if_pos hd]
        exact Option.some.inj hcost
      · cases hcost
  obtain ⟨ride, hride, hcost⟩ := key
  obtain ⟨hc, hr⟩ := createdRide_eq_some env a w ride hride
  have hid : ride.id = (created env a w).1.2 := hId _ _ _ hr
  rw [Execute_of_placementFailed env fuel a w ride hc hr hcost]
  refine ⟨hc, ⟨[Event.rideCreate (rideCreateAction env a w) (created env a w).1.1
      (created env a w).1.2] ++ (durablePlace env a ride
        (dryRun env a ride (created env a w).2)).trace, ?_⟩, ⟨_, rfl, rfl⟩, ?_⟩
  · simp only [rideDemolishAction, hid]
  · have h1 := dryRun_keepsRides env a ride (created env a w).2 hPlace
    have h2 := durablePlace_keepsRides env a ride (dryRun env a ride (created env a w).2) hPlace
    have hex : (env.get_ride (durablePlace env a ride
        (dryRun env a ride (created env a w).2)).world ride.id).isSome = true := by
      apply h2.1
      apply h1.1
      rw [hid, hr]
      rfl
    have h3 := hRemove (rideDemolishAction env a ride) _ hex
    have h4 := hAdd _ _ hc
    simp only [created] at h1 h2 h3 h4 ⊢
    omega

/-- C7. For a `Query` whose location is valid and whose nested ride creation returns
status `Ok`: the returned status is `Ok` exactly when the last dry-run placement was
made and returned a cost other than `MONEY32_UNDEFINED`; then `Cost` is that cost and
`Position` is `(loc.x + 16, loc.y + 16, loc.z)`; and when the dry run returned
`MONEY32_UNDEFINED` the status is `Disallowed`. -/
theorem query_ok_iff_dry_run_cost_defined (env : Env G) (a : TrackDesignAction) (w : World G)
    (hv : env.LocationValid (queryEntry a w) a._loc = true)
    (hc : (created env a (queryEntry a w)).1.1 = GameActions.Status.Ok) :
    ((Query env a w).result.Error = GameActions.Status.Ok ↔
      ∃ c, queryDryRunCost env a w = some c ∧ c ≠ env.MONEY32_UNDEFINED) ∧
    (∀ c, queryDryRunCost env a w = some c → c ≠ env.MONEY32_UNDEFINED →
      (Query env a w).result.Cost = c ∧
      (Query env a w).result.Position = { x := a._loc.x + 16, y := a._loc.y + 16, z := a._loc.z }) ∧
    (queryDryRunCost env a w = some env.MONEY32_UNDEFINED →
      (Query env a w).result.Error = GameActions.Status.Disallowed) := by
  cases hr : env.get_ride (created env a (queryEntry a w)).2 (created env a (queryEntry a w)).1.2 with
  | none =>
    have hq : queryDryRunCost env a w = none := by
      simp [queryDryRunCost, createdRide, hc, hr]
    rw [Query_of_notFound env a w hv hc hr, hq]
    simp [TrackDesignActionResult.ctorError]
  | some ride =>
    have hq : queryDryRunCost env a w
        = some (dryRun env a ride (created env a (queryEntry a w)).2).cost := by
      simp [queryDryRunCost, createdRide, hc, hr]
    rw [Query_of_found env a w ride hv hc hr, hq]
    by_cases hcost : (dryRun env a ride (created env a (queryEntry a w)).2).cost
        = env.MONEY32_UNDEFINED
    · simp [hcost, TrackDesignActionResult.ctorErrorMessage]
    · simp only [hcost, if_false]
      refine ⟨⟨fun _ => ⟨_, rfl, hcost⟩, fun _ => rfl⟩, ?_, ?_⟩
      · intro c hc' _
        cases hc'
        exact ⟨rfl, rfl⟩
      · intro h
        exact absurd (Option.some.inj h) hcost

/-- C9. A `Query` whose location fails `LocationValid` returns status `InvalidParameters`
and calls no collaborator at all: no ride creation, no placement, no demolition.  The
world it leaves differs from the one it found in `_currentTrackPieceDirection` only. -/
theorem query_invalid_location_submits_nothing (env : Env G) (a : TrackDesignAction) (w : World G)
    (hv : env.LocationValid (queryEntry a w) a._loc = false) :
    (Query env a w).result.Error = GameActions.Status.InvalidParameters ∧
    (Query env a w).trace = [] ∧
    (Query env a w).world = queryEntry a w := by
  rw [Query_of_invalid env a w hv]
  exact ⟨rfl, rfl, rfl⟩

/-- C10. Whenever the nested `RideCreateAction` returns a status other than `Ok`, `Query`
(its location being valid, so that the creation is submitted) and `Execute` return an
ordinary `Result` with status `NoFreeElements` and title
`STR_CANT_CREATE_NEW_RIDE_ATTRACTION`, and the ride creation is the only call they make:
no placement, no demolition, no further nested action. -/
theorem create_failure_reported_as_no_free_elements (env : Env G) (fuel : Nat)
    (a : TrackDesignAction) (w : World G) :
    (env.LocationValid (queryEntry a w) a._loc = true →
      (created env a (queryEntry a w)).1.1 ≠ GameActions.Status.Ok →
      (Query env a w).result.Error = GameActions.Status.NoFreeElements ∧
      (Query env a w).result.ErrorTitle = env.STR_CANT_CREATE_NEW_RIDE_ATTRACTION ∧
      (Query env a w).trace = [Event.rideCreate (rideCreateAction env a (queryEntry a w))
        (created env a (queryEntry a w)).1.1 (created env a (queryEntry a w)).1.2]) ∧
    ((created env a w).1.1 ≠ GameActions.Status.Ok →
      (∃ res, (Execute env fuel a w).result = some res ∧
        res.Error = GameActions.Status.NoFreeElements ∧
        res.ErrorTitle = env.STR_CANT_CREATE_NEW_RIDE_ATTRACTION) ∧
      (Execute env fuel a w).trace = [Event.rideCreate (rideCreateAction env a w)
        (created env a w).1.1 (created env a w).1.2]) := by
  refine ⟨fun hv hc => ?_, fun hc => ?_⟩
  · rw [Query_of_createFailed env a w hv hc]
    exact ⟨rfl, rfl, rfl⟩
  · rw [Execute_of_createFailed env fuel a w hc]
    exact ⟨⟨_, rfl, rfl, rfl⟩, rfl⟩

end TrackDesignAction

namespace Scripting

variable {P : Type}

/-- C3. From any initial `ScriptExecutionInfo` and any scopes constructed one inside
another (`outer` first, then `inner`), destroying the scopes of `inner` in reverse order
leaves the pair (current plugin, mutability) pushed by the innermost scope still alive,
the last of `outer`, and the initial pair when none is alive; so destroying all scopes of
a nest of any depth gives back the initial state exactly. -/
theorem pluginScope_nesting_restores (s0 : ScriptExecutionInfo P) (outer inner : List (P × Bool)) :
    (((Frames.mk s0 []).enterAll (outer ++ inner)).leaveN inner.length).execInfo.pair
      = outer.getLast?.getD s0.pair ∧
    (((Frames.mk s0 []).enterAll (outer ++ inner)).leaveN (outer ++ inner).length).execInfo = s0 := by
  constructor
  · rw [Frames.enterAll_append, Frames.leaveN_enterAll, Frames.execInfo_enterAll]
  · rw [Frames.leaveN_enterAll]

/-- C4. Right after a `PluginScope` is constructed with `(plugin, isGameStateMutable)`,
and again whenever it is the innermost live scope because every scope constructed inside
it has been destroyed, `GetCurrentPlugin` returns that plugin and `IsGameStateMutable`
returns that flag, whatever the state before; a scope entered with `false` reports the
game state as not mutable also inside a mutable scope. -/
theorem pluginScope_reports_its_pair (f : Frames P) (plugin : P) (isGameStateMutable : Bool)
    (inner : List (P × Bool)) :
    (PluginScope.ctor f.execInfo plugin isGameStateMutable).2.GetCurrentPlugin = plugin ∧
    (PluginScope.ctor f.execInfo plugin isGameStateMutable).2.IsGameStateMutable
      = isGameStateMutable ∧
    (((f.enter plugin isGameStateMutable).enterAll inner).leaveN inner.length).execInfo.GetCurrentPlugin
      = plugin ∧
    (((f.enter plugin isGameStateMutable).enterAll inner).leaveN inner.length).execInfo.IsGameStateMutable
      = isGameStateMutable := by
  rw [Frames.leaveN_enterAll]
  exact ⟨rfl, rfl, rfl, rfl⟩

end Scripting

/-! ## Flags of the nested actions -/

namespace TrackDesignAction

variable {G : Type}

theorem flags_dryRun (env : Env G) (a : TrackDesignAction) (ride : Ride) (w : World G) :
    ∀ e ∈ (dryRun env a ride w).trace, e.isPlacement = true := by
  simp only [dryRun]
  split <;> simp [Event.isPlacement]

theorem flags_durablePlace (env : Env G) (a : TrackDesignAction) (ride : Ride) (p : Placement G)
    (hp : ∀ e ∈ p.trace, e.isPlacement = true) :
    ∀ e ∈ (durablePlace env a ride p).trace, e.isPlacement = true := by
  simp only [durablePlace]
  split
  · intro e he
    rcases List.mem_append.1 he with h | h
    · exact hp e h
    · rw [List.mem_singleton.1 h]
      rfl
  · exact hp

theorem flagsAsWritten_of_isPlacement (c : Consts) (parent : Nat) (e : Event)
    (h : e.isPlacement = true) : FlagsAsWritten c parent e := by
  cases e <;> simp_all [Event.isPlacement, FlagsAsWritten]

theorem flags_configureRide (env : Env G) (a : TrackDesignAction) (entryIndex : ObjectEntryIndex)
    (ride : Ride) (w : World G) :
    ∀ e ∈ (configureRide env a entryIndex ride w).2, FlagsAsWritten env.toConsts a.flags e := by
  simp only [configureRide, setOperatingSetting, setVehicle]
  split <;> simp [FlagsAsWritten]

theorem flags_nameLoop (env : Env G) (a : TrackDesignAction) (rideId : ride_id_t) (fuel count : Nat)
    (r : GameActions.Status) (w : World G) :
    ∀ e ∈ (nameLoop env a rideId fuel count r w).trace, FlagsAsWritten env.toConsts a.flags e := by
  induction fuel generalizing count r w with
  | zero =>
    simp only [nameLoop]
    split <;> simp
  | succ fuel ih =>
    simp only [nameLoop]
    split
    · intro e he
      rcases List.mem_cons.1 he with h | h
      · rw [h]
        rfl
      · exact ih _ _ _ e h
    · simp

theorem flags_Query (env : Env G) (a : TrackDesignAction) (w : World G) :
    ∀ e ∈ (Query env a w).trace, FlagsAsWritten env.toConsts a.flags e := by
  by_cases hv : env.LocationValid (queryEntry a w) a._loc = false
  · rw [Query_of_invalid env a w hv]
    simp
  · have hv' : env.LocationValid (queryEntry a w) a._loc = true := by simpa using hv
    by_cases hc : (created env a (queryEntry a w)).1.1 = GameActions.Status.Ok
    · cases hr : env.get_ride (created env a (queryEntry a w)).2
        (created env a (queryEntry a w)).1.2 with
      | none =>
        rw [Query_of_notFound env a w hv' hc hr]
        simp [FlagsAsWritten, rideCreateAction]
      | some ride =>
        rw [Query_of_found env a w ride hv' hc hr]
        intro e he
        simp only [List.mem_append, List.mem_singleton] at he
        rcases he with (h | h) | h
        · rw [h]
          rfl
        · exact flagsAsWritten_of_isPlacement _ _ _ (flags_dryRun env a ride _ e h)
        · rw [h]
          rfl
    · rw [Query_of_createFailed env a w hv' hc]
      simp [FlagsAsWritten, rideCreateAction]

theorem flags_Execute (env : Env G) (fuel : Nat) (a : TrackDesignAction) (w : World G) :
    ∀ e ∈ (Execute env fuel a w).trace, FlagsAsWritten env.toConsts a.flags e := by
  by_cases hc : (created env a w).1.1 = GameActions.Status.Ok
  · cases hr : env.get_ride (created env a w).2 (created env a w).1.2 with
    | none =>
      rw [Execute_of_notFound env fuel a w hc hr]
      simp [FlagsAsWritten, rideCreateAction]
    | some ride =>
      have hplace := flags_durablePlace env a ride _ (flags_dryRun env a ride (created env a w).2)
      by_cases hp : (durablePlace env a ride (dryRun env a ride (created env a w).2)).cost
          = env.MONEY32_UNDEFINED
      · rw [Execute_of_placementFailed env fuel a w ride hc hr hp]
        intro e he
        simp only [List.mem_append, List.mem_singleton] at he
        rcases he with (h | h) | h
        · rw [h]
          rfl
        · exact flagsAsWritten_of_isPlacement _ _ _ (hplace e h)
        · rw [h]
          rfl
      · rw [Execute_of_placed env fuel a w ride hc hr hp]
        intro e he
        simp only [List.mem_append, List.mem_singleton] at he
        rcases he with ((h | h) | h) | h
        · rw [h]
          rfl
        · exact flagsAsWritten_of_isPlacement _ _ _ (hplace e h)
        · exact flags_configureRide env a _ ride _ e h
        · exact flags_nameLoop env a _ _ _ _ _ e h
  · rw [Execute_of_createFailed env fuel a w hc]
    simp [FlagsAsWritten, rideCreateAction]

/-- C6 does not hold as stated: in the sample park, `Execute` of an action whose flags
are the ghost flag alone calls `set_operating_setting_nested` for the ride mode with
flags `GAME_COMMAND_FLAG_APPLY`, in which the ghost flag is not set. -/
theorem nested_setting_lacks_parent_ghost_flag :
    Event.setOperatingSettingNested 1 RideSetSetting.Mode 1 Sample.consts.GAME_COMMAND_FLAG_APPLY
      ∈ (Execute Sample.env 1 (Sample.actionAt 32 32 Sample.consts.GAME_COMMAND_FLAG_GHOST)
          (Sample.worldOf Sample.emptyPark)).trace ∧
    hasFlag (Sample.actionAt 32 32 Sample.consts.GAME_COMMAND_FLAG_GHOST).flags
      Sample.consts.GAME_COMMAND_FLAG_GHOST = true ∧
    hasFlag Sample.consts.GAME_COMMAND_FLAG_APPLY Sample.consts.GAME_COMMAND_FLAG_GHOST = false ∧
    ¬ ∀ e ∈ (Execute Sample.env 1 (Sample.actionAt 32 32 Sample.consts.GAME_COMMAND_FLAG_GHOST)
          (Sample.worldOf Sample.emptyPark)).trace,
        ∀ f, e.submittedFlags = some f →
          InheritsFlags Sample.consts
            (Sample.actionAt 32 32 Sample.consts.GAME_COMMAND_FLAG_GHOST).flags f := by
  have hmem : Event.setOperatingSettingNested 1 RideSetSetting.Mode 1
      Sample.consts.GAME_COMMAND_FLAG_APPLY
      ∈ (Execute Sample.env 1 (Sample.actionAt 32 32 Sample.consts.GAME_COMMAND_FLAG_GHOST)
          (Sample.worldOf Sample.emptyPark)).trace := by decide
  refine ⟨hmem, by decide, by decide, fun h => ?_⟩
  have := h _ hmem _ rfl
  revert this
  decide

/-- C6, amended. Every nested ride creation, ride demolition and naming that `Query` or
`Execute` submits carries exactly the parent's flags, so each of the replay, ghost and
network-origin flags is set on it iff it is set on the parent; every
`set_operating_setting_nested` call is made with the flags `GAME_COMMAND_FLAG_APPLY`,
whatever the parent's flags. -/
theorem nested_flags_as_written (env : Env G) (fuel : Nat) (a : TrackDesignAction) (w : World G)
    (e : Event) (he : e ∈ (Query env a w).trace ++ (Execute env fuel a w).trace) :
    FlagsAsWritten env.toConsts a.flags e ∧
    (e.isCreateDemolishOrSetName = true →
      ∃ f, e.submittedFlags = some f ∧ f = a.flags ∧ InheritsFlags env.toConsts a.flags f) ∧
    (e.isSetOperatingSetting = true → e.submittedFlags = some env.GAME_COMMAND_FLAG_APPLY) := by
  have hw : FlagsAsWritten env.toConsts a.flags e := by
    rcases List.mem_append.1 he with h | h
    · exact flags_Query env a w e h
    · exact flags_Execute env fuel a w e h
  refine ⟨hw, ?_, ?_⟩
  · intro hk
    cases e <;> simp_all [FlagsAsWritten, Event.isCreateDemolishOrSetName, Event.submittedFlags,
      InheritsFlags]
  · intro hk
    cases e <;> simp_all [FlagsAsWritten, Event.isSetOperatingSetting, Event.submittedFlags]

/-! ## The naming loop -/

theorem nameLoop_done (env : Env G) (a : TrackDesignAction) (rideId : ride_id_t) (fuel count : Nat)
    (w : World G) (hcount : count ≠ 1) :
    nameLoop env a rideId fuel count GameActions.Status.Ok w
      = { result := true, world := w, trace := [] } := by
  cases fuel <;> simp [nameLoop, hcount]

theorem nameLoop_accepted (env : Env G) (a : TrackDesignAction) (rideId : ride_id_t) :
    ∀ (n count : Nat) (r : GameActions.Status) (w : World G) (fuel : Nat), 1 ≤ count →
      (count = 1 ∨ r ≠ GameActions.Status.Ok) → AcceptedAfter env a rideId n count w → n < fuel →
      (nameLoop env a rideId fuel count r w).result = true ∧
      ∃ calls w', (nameLoop env a rideId fuel count r w).trace
          = calls ++ [Event.rideSetName (rideSetNameAction a rideId (count + n))
              GameActions.Status.Ok] ∧
        calls.length = n ∧
        (env.ExecuteNestedRideSetName (rideSetNameAction a rideId (count + n)) w').1
          = GameActions.Status.Ok ∧
        (nameLoop env a rideId fuel count r w).world
          = (env.ExecuteNestedRideSetName (rideSetNameAction a rideId (count + n)) w').2 := by
  intro n
  induction n with
  | zero =>
    intro count r w fuel hcount hcond hacc hfuel
    obtain ⟨fuel, rfl⟩ : ∃ f, fuel = f + 1 := ⟨fuel - 1, by omega⟩
    simp only [AcceptedAfter] at hacc
    simp only [nameLoop, if_pos hcond, hacc]
    rw [nameLoop_done env a rideId fuel (count + 1) _ (by omega)]
    exact ⟨rfl, [], w, rfl, rfl, hacc, rfl⟩
  | succ n ih =>
    intro count r w fuel hcount hcond hacc hfuel
    obtain ⟨fuel, rfl⟩ : ∃ f, fuel = f + 1 := ⟨fuel - 1, by omega⟩
    simp only [AcceptedAfter] at hacc
    obtain ⟨hrefused, hrest⟩ := hacc
    obtain ⟨hres, calls, w', htrace, hlen, hok, hworld⟩ :=
      ih (count + 1) _ _ fuel (by omega) (Or.inr hrefused) hrest (by omega)
    have hidx : count + 1 + n = count + (n + 1) := by omega
    rw [hidx] at htrace hok hworld
    simp only [nameLoop, if_pos hcond]
    refine ⟨hres, Event.rideSetName (rideSetNameAction a rideId count)
      (env.ExecuteNestedRideSetName (rideSetNameAction a rideId count) w).1 :: calls, w', ?_,
      by simp [hlen], hok, hworld⟩
    rw [htrace]
    rfl

theorem nameLoop_finished (env : Env G) (a : TrackDesignAction) (rideId : ride_id_t) :
    ∀ (fuel count : Nat) (r : GameActions.Status) (w : World G), 1 ≤ count →
      (count = 1 ∨ r ≠ GameActions.Status.Ok) →
      (nameLoop env a rideId fuel count r w).result = true →
      ∃ n, n < fuel ∧ AcceptedAfter env a rideId n count w := by
  intro fuel
  induction fuel with
  | zero =>
    intro count r w _ hcond h
    simp [nameLoop, hcond] at h
  | succ fuel ih =>
    intro count r w hcount hcond h
    by_cases hok : (env.ExecuteNestedRideSetName (rideSetNameAction a rideId count) w).1
        = GameActions.Status.Ok
    · exact ⟨0, by omega, hok⟩
    · simp only [nameLoop, if_pos hcond] at h
      obtain ⟨n, hn, hacc⟩ := ih (count + 1) _ _ (by omega) (Or.inr hok) h
      exact ⟨n + 1, by omega, hok, hacc⟩

theorem nameLoop_keepsRides (env : Env G) (a : TrackDesignAction) (rideId : ride_id_t)
    (hName : ∀ act, env.KeepsRides (fun w => (env.ExecuteNestedRideSetName act w).2)) :
    ∀ (fuel count : Nat) (r : GameActions.Status) (w : World G) (i : ride_id_t),
      (env.get_ride w i).isSome = true →
      (env.get_ride (nameLoop env a rideId fuel count r w).world i).isSome = true := by
  intro fuel
  induction fuel with
  | zero =>
    intro count r w i h
    simp only [nameLoop]
    split <;> exact h
  | succ fuel ih =>
    intro count r w i h
    simp only [nameLoop]
    split
    · exact ih _ _ _ i (hName _ w i h)
    · exact h

theorem setOperatingSetting_keepsRides (env : Env G) (hConf : env.ConfigurationKeepsRides)
    (rideId : ride_id_t) (setting : RideSetSetting) (value flags : Nat)
    (s : World G × List Event) (i : ride_id_t) (h : (env.get_ride s.1 i).isSome = true) :
    (env.get_ride (setOperatingSetting env rideId setting value flags s).1 i).isSome = true :=
  hConf.setSetting rideId setting value flags s.1 i h

theorem setVehicle_keepsRides (env : Env G) (hConf : env.ConfigurationKeepsRides)
    (act : RideSetVehicleAction) (s : World G × List Event) (i : ride_id_t)
    (h : (env.get_ride s.1 i).isSome = true) :
    (env.get_ride (setVehicle env act s).1 i).isSome = true :=
  hConf.setVehicle act s.1 i h

theorem configureRide_keepsRides (env : Env G) (hConf : env.ConfigurationKeepsRides)
    (a : TrackDesignAction) (entryIndex : ObjectEntryIndex) (ride : Ride) (w : World G)
    (i : ride_id_t) (h : (env.get_ride w i).isSome = true) :
    (env.get_ride (configureRide env a entryIndex ride w).1 i).isSome = true := by
  simp only [configureRide]
  repeat' first
    | apply setOperatingSetting_keepsRides env hConf
    | apply setVehicle_keepsRides env hConf
  split
  · exact setVehicle_keepsRides env hConf _ _ i h
  · exact h

theorem namingEntry_eq_some (env : Env G) (a : TrackDesignAction) (w : World G) (ride : Ride)
    (wl : World G) (h : namingEntry env a w = some (ride, wl)) :
    createdRide env a w = some ride ∧
    (durablePlace env a ride (dryRun env a ride (created env a w).2)).cost ≠ env.MONEY32_UNDEFINED ∧
    wl = env.updateRide ride.id (applyDesign env a)
      (configureRide env a (entryIndex env a w) ride
        (durablePlace env a ride (dryRun env a ride (created env a w).2)).world).1 := by
  simp only [namingEntry, Option.bind_eq_some] at h
  obtain ⟨ride', hr, hrest⟩ := h
  split at hrest
  · cases hrest
  · rename_i hcost
    cases hrest
    exact ⟨hr, hcost, rfl⟩

theorem acceptedAfter_of_used (env : Env G) (a : TrackDesignAction) (rideId : ride_id_t)
    (used : World G → ride_id_t → String → Prop)
    (hExact : ∀ act w, (env.ExecuteNestedRideSetName act w).1 ≠ GameActions.Status.Ok ↔
      used w act.rideIndex act.name)
    (hRefused : ∀ act w, (env.ExecuteNestedRideSetName act w).1 ≠ GameActions.Status.Ok →
      ∀ name, used (env.ExecuteNestedRideSetName act w).2 act.rideIndex name ↔
        used w act.rideIndex name) :
    ∀ (n count : Nat) (w : World G),
      (∀ j, count ≤ j → j < count + n → used w rideId (rideName a j)) →
      ¬ used w rideId (rideName a (count + n)) → AcceptedAfter env a rideId n count w := by
  intro n
  induction n with
  | zero =>
    intro count w _ hfree
    simp only [AcceptedAfter]
    by_contra hne
    exact hfree ((hExact (rideSetNameAction a rideId count) w).1 hne)
  | succ n ih =>
    intro count w hbelow hfree
    have hne : (env.ExecuteNestedRideSetName (rideSetNameAction a rideId count) w).1
        ≠ GameActions.Status.Ok :=
      (hExact (rideSetNameAction a rideId count) w).2 (hbelow count (le_refl _) (by omega))
    refine ⟨hne, ih (count + 1) _ ?_ ?_⟩
    · intro j hj1 hj2
      exact (hRefused (rideSetNameAction a rideId count) w hne _).2 (hbelow j (by omega) (by omega))
    · intro hused
      apply hfree
      have := (hRefused (rideSetNameAction a rideId count) w hne _).1 hused
      have hidx : count + 1 + n = count + (n + 1) := by omega
      rw [hidx] at this
      exact this

theorem durablePlacementCost_of_found (env : Env G) (a : TrackDesignAction) (w : World G)
    (ride : Ride) (hride : createdRide env a w = some ride) :
    ((durablePlace env a ride (dryRun env a ride (created env a w).2)).cost ≠ env.MONEY32_UNDEFINED →
      durablePlacementCost env a w
        = some (durablePlace env a ride (dryRun env a ride (created env a w).2)).cost) ∧
    ((durablePlace env a ride (dryRun env a ride (created env a w).2)).cost = env.MONEY32_UNDEFINED →
      ∀ c, durablePlacementCost env a w = some c → c = env.MONEY32_UNDEFINED) := by
  constructor
  · intro h
    have hd : (dryRun env a ride (created env a w).2).cost ≠ env.MONEY32_UNDEFINED := by
      intro hd
      apply h
      rw [durablePlace_cost]
      simp [hd]
    simp [durablePlacementCost, hride, durablePlace_cost, hd]
  · intro h c hc
    by_cases hd : (dryRun env a ride (created env a w).2).cost = env.MONEY32_UNDEFINED
    · simp [durablePlacementCost, hride, hd] at hc
    · simp only [durablePlacementCost, hride, Option.some_bind, ne_eq, hd, not_false_eq_true,
        if_true] at hc
      rw [durablePlace_cost] at h
      simp only [ne_eq, hd, not_false_eq_true, if_true] at h
      rw [← Option.some.inj hc]
      exact h

theorem createdRide_of_found (env : Env G) (a : TrackDesignAction) (w : World G) (ride : Ride)
    (hc : (created env a w).1.1 = GameActions.Status.Ok)
    (hr : env.get_ride (created env a w).2 (created env a w).1.2 = some ride) :
    createdRide env a w = some ride := by
  simp [createdRide, hc, hr]

/-- C5. Suppose a set-name is refused exactly when the requested name is in use by
another ride (`used`), a refused set-name changes no name's being in use, and an
accepted one gives the ride the requested name.  If `Execute` reaches the naming loop,
and there the requested name `n` (candidate 1) and the names `n ++ " " ++ j` for
`2 ≤ j < k` are in use while candidate `k` is not, then with at least `k` iterations
allowed `Execute` returns status `Ok`, the last call it makes is the accepted set-name
carrying candidate `k`, and the ride is named candidate `k`: `n` itself for `k = 1`, and
`n` followed by a space and the decimal `k` for the least `k ≥ 2` otherwise, `n ++ " 2"`
and `n ++ " 3"` in particular.  `k + 1` is taken within the range of the `int32_t` loop
variable, where the increment of `count` is defined. -/
theorem execute_names_ride_with_first_unused_candidate (env : Env G) (fuel : Nat)
    (a : TrackDesignAction) (w : World G) (ride : Ride) (wl : World G) (k : Nat)
    (used : World G → ride_id_t → String → Prop) (nameOf : World G → ride_id_t → String)
    (hExact : ∀ act w', (env.ExecuteNestedRideSetName act w').1 ≠ GameActions.Status.Ok ↔
      used w' act.rideIndex act.name)
    (hRefused : ∀ act w', (env.ExecuteNestedRideSetName act w').1 ≠ GameActions.Status.Ok →
      ∀ name, used (env.ExecuteNestedRideSetName act w').2 act.rideIndex name ↔
        used w' act.rideIndex name)
    (hAccepted : ∀ act w', (env.ExecuteNestedRideSetName act w').1 = GameActions.Status.Ok →
      nameOf (env.ExecuteNestedRideSetName act w').2 act.rideIndex = act.name)
    (hEntry : namingEntry env a w = some (ride, wl))
    (hk : 1 ≤ k) (_hRange : k + 1 < 2 ^ 31) (hfuel : k ≤ fuel)
    (hBelow : ∀ j, 1 ≤ j → j < k → used wl ride.id (rideName a j))
    (hFree : ¬ used wl ride.id (rideName a k)) :
    (∃ res, (Execute env fuel a w).result = some res ∧ res.Error = GameActions.Status.Ok ∧
      res.rideIndex = ride.id) ∧
    (∃ calls, (Execute env fuel a w).trace = calls ++
      [Event.rideSetName { rideIndex := ride.id, name := rideName a k, flags := a.flags }
        GameActions.Status.Ok]) ∧
    nameOf (Execute env fuel a w).world ride.id = rideName a k ∧
    rideName a k = (if k = 1 then a._td.name else a._td.name ++ " " ++ toString k) ∧
    rideName a 2 = a._td.name ++ " 2" ∧ rideName a 3 = a._td.name ++ " 3" := by
  obtain ⟨hride, hcost, rfl⟩ := namingEntry_eq_some env a w ride wl hEntry
  obtain ⟨hc, hr⟩ := createdRide_eq_some env a w ride hride
  have hacc : AcceptedAfter env a ride.id (k - 1) 1 _ :=
    acceptedAfter_of_used env a ride.id used hExact hRefused (k - 1) 1 _
      (fun j h1 h2 => hBelow j h1 (by omega))
      (by rw [show 1 + (k - 1) = k by omega]; exact hFree)
  obtain ⟨hres, calls, w', htrace, -, hok, hworld⟩ :=
    nameLoop_accepted env a ride.id (k - 1) 1 (created env a w).1.1 _ fuel (le_refl 1)
      (Or.inl rfl) hacc (by omega)
  rw [show 1 + (k - 1) = k by omega] at htrace hok hworld
  rw [Execute_of_placed env fuel a w ride hc hr hcost]
  refine ⟨⟨_, if_pos hres, rfl, rfl⟩,
    ⟨[Event.rideCreate (rideCreateAction env a w) (created env a w).1.1 (created env a w).1.2]
      ++ (durablePlace env a ride (dryRun env a ride (created env a w).2)).trace
      ++ (configureRide env a (entryIndex env a w) ride
          (durablePlace env a ride (dryRun env a ride (created env a w).2)).world).2
      ++ calls, ?_⟩, ?_, rfl, ?_, ?_⟩
  · simp only [htrace, List.append_assoc]
    rfl
  · simp only [hworld]
    exact hAccepted (rideSetNameAction a ride.id k) w' hok
  · simp only [rideName, String.append_assoc]
    rfl
  · simp only [rideName, String.append_assoc]
    rfl

theorem Execute_status_of_result (env : Env G) (fuel : Nat) (a : TrackDesignAction)
    (w : World G) (hId : env.GetRideHasId) (hPlace : env.PlacementKeepsRides)
    (hConf : env.ConfigurationKeepsRides) :
    (∀ res, (Execute env fuel a w).result = some res →
      (res.Error = GameActions.Status.Ok ↔
        (created env a w).1.1 = GameActions.Status.Ok ∧
        ∃ c, durablePlacementCost env a w = some c ∧ c ≠ env.MONEY32_UNDEFINED) ∧
      (res.Error = GameActions.Status.Ok →
        res.rideIndex = (created env a w).1.2 ∧
        (env.get_ride (Execute env fuel a w).world res.rideIndex).isSome = true ∧
        durablePlacementCost env a w = some res.Cost)) ∧
    (¬ ((created env a w).1.1 = GameActions.Status.Ok ∧
        ∃ c, durablePlacementCost env a w = some c ∧ c ≠ env.MONEY32_UNDEFINED) →
      ∃ res, (Execute env fuel a w).result = some res ∧ res.Error ≠ GameActions.Status.Ok) ∧
    (((created env a w).1.1 = GameActions.Status.Ok ∧
        ∃ c, durablePlacementCost env a w = some c ∧ c ≠ env.MONEY32_UNDEFINED) →
      ∃ ride wl, namingEntry env a w = some (ride, wl) ∧
        ∀ n, AcceptedAfter env a ride.id n 1 wl → n < fuel →
          ∃ res, (Execute env fuel a w).result = some res ∧
            res.Error = GameActions.Status.Ok) := by
  by_cases hc : (created env a w).1.1 = GameActions.Status.Ok
  · cases hr : env.get_ride (created env a w).2 (created env a w).1.2 with
    | none =>
      have hd : durablePlacementCost env a w = none := by
        simp [durablePlacementCost, createdRide, hc, hr]
      rw [Execute_of_notFound env fuel a w hc hr, hd]
      simp [TrackDesignActionResult.ctorError]
    | some ride =>
      have hride := createdRide_of_found env a w ride hc hr
      obtain ⟨hdef, hundef⟩ := durablePlacementCost_of_found env a w ride hride
      by_cases hp : (durablePlace env a ride (dryRun env a ride (created env a w).2)).cost
          = env.MONEY32_UNDEFINED
      · have hno : ¬ ((created env a w).1.1 = GameActions.Status.Ok ∧
            ∃ c, durablePlacementCost env a w = some c ∧ c ≠ env.MONEY32_UNDEFINED) := by
          rintro ⟨-, c, hc1, hc2⟩
          exact hc2 (hundef hp c hc1)
        rw [Execute_of_placementFailed env fuel a w ride hc hr hp]
        refine ⟨?_, fun _ => ⟨_, rfl, by simp [TrackDesignActionResult.ctorErrorMessage]⟩,
          fun h => absurd h hno⟩
        intro res hres
        cases hres
        simp only [TrackDesignActionResult.ctorErrorMessage, reduceCtorEq, false_iff, false_imp_iff,
          and_true]
        exact hno
      · have hyes : (created env a w).1.1 = GameActions.Status.Ok ∧
            ∃ c, durablePlacementCost env a w = some c ∧ c ≠ env.MONEY32_UNDEFINED :=
          ⟨hc, _, hdef hp, hp⟩
        have hentry : namingEntry env a w = some (ride, env.updateRide ride.id (applyDesign env a)
            (configureRide env a (entryIndex env a w) ride
              (durablePlace env a ride (dryRun env a ride (created env a w).2)).world).1) := by
          simp [namingEntry, hride, hp]
        have hexists : (env.get_ride (nameLoop env a ride.id fuel 1 (created env a w).1.1
            (env.updateRide ride.id (applyDesign env a)
              (configureRide env a (entryIndex env a w) ride
                (durablePlace env a ride (dryRun env a ride (created env a w).2)).world).1)).world
            ride.id).isSome = true := by
          apply nameLoop_keepsRides env a ride.id hConf.setName
          apply hConf.update
          apply configureRide_keepsRides env hConf
          apply (durablePlace_keepsRides env a ride _ hPlace).1
          apply (dryRun_keepsRides env a ride _ hPlace).1
          rw [hId _ _ _ hr, hr]
          rfl
        rw [Execute_of_placed env fuel a w ride hc hr hp]
        refine ⟨?_, fun h => absurd hyes h, fun _ => ⟨_, _, hentry, ?_⟩⟩
        · intro res hres
          simp only at hres
          split at hres
          · cases hres
            exact ⟨⟨fun _ => hyes, fun _ => rfl⟩, fun _ => ⟨hId _ _ _ hr, hexists, hdef hp⟩⟩
          · cases hres
        · intro n hacc hn
          obtain ⟨hres, -⟩ := nameLoop_accepted env a ride.id n 1 (created env a w).1.1 _ fuel
            (le_refl 1) (Or.inl rfl) hacc hn
          exact ⟨_, if_pos hres, rfl⟩
  · have hd : durablePlacementCost env a w = none := by
      simp [durablePlacementCost, createdRide, hc]
    rw [Execute_of_createFailed env fuel a w hc, hd]
    simp [TrackDesignActionResult.ctorErrorTitleMessage, hc]

theorem namingEntry_of_found (env : Env G) (a : TrackDesignAction) (w : World G) (ride : Ride)
    (hride : createdRide env a w = some ride)
    (hp : (durablePlace env a ride (dryRun env a ride (created env a w).2)).cost
      ≠ env.MONEY32_UNDEFINED) :
    namingEntry env a w = some (ride, env.updateRide ride.id (applyDesign env a)
      (configureRide env a (entryIndex env a w) ride
        (durablePlace env a ride (dryRun env a ride (created env a w).2)).world).1) := by
  simp [namingEntry, hride, hp]

theorem Execute_ok_iff_accepted (env : Env G) (fuel : Nat) (a : TrackDesignAction) (w : World G) :
    (∃ res, (Execute env fuel a w).result = some res ∧ res.Error = GameActions.Status.Ok) ↔
      ∃ ride wl n, namingEntry env a w = some (ride, wl) ∧ n < fuel ∧
        AcceptedAfter env a ride.id n 1 wl := by
  constructor
  · rintro ⟨res, hres, hok⟩
    by_cases hc : (created env a w).1.1 = GameActions.Status.Ok
    · cases hr : env.get_ride (created env a w).2 (created env a w).1.2 with
      | none =>
        rw [Execute_of_notFound env fuel a w hc hr] at hres
        cases hres
        cases hok
      | some ride =>
        by_cases hp : (durablePlace env a ride (dryRun env a ride (created env a w).2)).cost
            = env.MONEY32_UNDEFINED
        · rw [Execute_of_placementFailed env fuel a w ride hc hr hp] at hres
          cases hres
          cases hok
        · rw [Execute_of_placed env fuel a w ride hc hr hp] at hres
          simp only at hres
          split at hres
          · rename_i hnamed
            obtain ⟨n, hn, hacc⟩ := nameLoop_finished env a ride.id fuel 1 _ _ (le_refl 1)
              (Or.inl rfl) hnamed
            exact ⟨ride, _, n,
              namingEntry_of_found env a w ride (createdRide_of_found env a w ride hc hr) hp,
              hn, hacc⟩
          · cases hres
    · rw [Execute_of_createFailed env fuel a w hc] at hres
      cases hres
      cases hok
  · rintro ⟨ride, wl, n, hentry, hn, hacc⟩
    obtain ⟨hride, hcost, rfl⟩ := namingEntry_eq_some env a w ride wl hentry
    obtain ⟨hc, hr⟩ := createdRide_eq_some env a w ride hride
    obtain ⟨hres, -⟩ := nameLoop_accepted env a ride.id n 1 (created env a w).1.1 _ fuel
      (le_refl 1) (Or.inl rfl) hacc hn
    rw [Execute_of_placed env fuel a w ride hc hr hcost]
    exact ⟨_, if_pos hres, rfl⟩

theorem Execute_none_of_never_accepted (env : Env G) (fuel : Nat) (a : TrackDesignAction)
    (w : World G) (ride : Ride) (wl : World G) (hentry : namingEntry env a w = some (ride, wl))
    (hnever : ∀ n, ¬ AcceptedAfter env a ride.id n 1 wl) :
    (Execute env fuel a w).result = none := by
  obtain ⟨hride, hcost, rfl⟩ := namingEntry_eq_some env a w ride wl hentry
  obtain ⟨hc, hr⟩ := createdRide_eq_some env a w ride hride
  rw [Execute_of_placed env fuel a w ride hc hr hcost]
  simp only
  split
  · rename_i hnamed
    obtain ⟨n, -, hacc⟩ := nameLoop_finished env a ride.id fuel 1 _ _ (le_refl 1)
      (Or.inl rfl) hnamed
    exact absurd hacc (hnever n)
  · rfl

/-- C8, amended. `Execute` returns status `Ok` exactly when the nested ride creation
succeeded, the durable placement was made and returned a cost other than
`MONEY32_UNDEFINED`, and one of the set-name attempts of the naming loop is accepted
within the iterations allowed.  When it returns `Ok`, `rideIndex` is the index returned
by this call's ride creation, `get_ride` finds a ride under it in the world `Execute`
leaves, and `Cost` is the cost the durable placement returned.  When creation or
placement failed, `Execute` does return, with a status other than `Ok`; when both
succeeded and no set-name attempt is ever accepted, it returns nothing, however many
iterations are allowed.  The collaborators are taken to keep their contracts: a ride
found under an index has it as id, and neither a placement nor a configuration step
removes a ride. -/
theorem execute_ok_iff_created_placed_and_named (env : Env G) (fuel : Nat)
    (a : TrackDesignAction) (w : World G) (hId : env.GetRideHasId)
    (hPlace : env.PlacementKeepsRides) (hConf : env.ConfigurationKeepsRides) :
    ((∃ res, (Execute env fuel a w).result = some res ∧ res.Error = GameActions.Status.Ok) ↔
      (created env a w).1.1 = GameActions.Status.Ok ∧
      (∃ c, durablePlacementCost env a w = some c ∧ c ≠ env.MONEY32_UNDEFINED) ∧
      ∃ ride wl n, namingEntry env a w = some (ride, wl) ∧ n < fuel ∧
        AcceptedAfter env a ride.id n 1 wl) ∧
    (∀ res, (Execute env fuel a w).result = some res → res.Error = GameActions.Status.Ok →
      res.rideIndex = (created env a w).1.2 ∧
      (env.get_ride (Execute env fuel a w).world res.rideIndex).isSome = true ∧
      durablePlacementCost env a w = some res.Cost) ∧
    (¬ ((created env a w).1.1 = GameActions.Status.Ok ∧
        ∃ c, durablePlacementCost env a w = some c ∧ c ≠ env.MONEY32_UNDEFINED) →
      ∃ res, (Execute env fuel a w).result = some res ∧ res.Error ≠ GameActions.Status.Ok) ∧
    (∀ ride wl, namingEntry env a w = some (ride, wl) →
      (∀ n, ¬ AcceptedAfter env a ride.id n 1 wl) →
      ∀ fuel', (Execute env fuel' a w).result = none) := by
  have hstatus := Execute_status_of_result env fuel a w hId hPlace hConf
  refine ⟨?_, fun res hres hok => (hstatus.1 res hres).2 hok, hstatus.2.1,
    fun ride wl hentry hnever fuel' =>
      Execute_none_of_never_accepted env fuel' a w ride wl hentry hnever⟩
  rw [Execute_ok_iff_accepted]
  constructor
  · rintro ⟨ride, wl, n, hentry, hn, hacc⟩
    obtain ⟨hride, hcost, -⟩ := namingEntry_eq_some env a w ride wl hentry
    exact ⟨(createdRide_eq_some env a w ride hride).1,
      ⟨_, (durablePlacementCost_of_found env a w ride hride).1 hcost, hcost⟩,
      ride, wl, n, hentry, hn, hacc⟩
  · rintro ⟨-, -, h⟩
    exact h

end TrackDesignAction

/-! ## The claims on the sample park -/

namespace Sample

open TrackDesignAction

theorem rideSetName_refused_iff (act : RideSetNameAction) (w : World Park) :
    (env.ExecuteNestedRideSetName act w).1 ≠ GameActions.Status.Ok ↔
      nameUsed w act.rideIndex act.name = true := by
  simp only [env, rideSetName]
  split <;> simp_all

theorem rideSetName_refused_keeps (act : RideSetNameAction) (w : World Park)
    (h : (env.ExecuteNestedRideSetName act w).1 ≠ GameActions.Status.Ok) (name : String) :
    nameUsed (env.ExecuteNestedRideSetName act w).2 act.rideIndex name = true ↔
      nameUsed w act.rideIndex name = true := by
  simp only [env, rideSetName] at h ⊢
  split
  · rfl
  · rename_i hu
    simp [hu] at h

theorem rideSetName_accepted_names (act : RideSetNameAction) (w : World Park)
    (h : (env.ExecuteNestedRideSetName act w).1 = GameActions.Status.Ok) :
    nameOf (env.ExecuteNestedRideSetName act w).2 act.rideIndex = act.name := by
  simp only [env, rideSetName] at h ⊢
  split
  · rename_i hu
    simp [hu] at h
  · simp [nameOf, withGame]

/-- C2 on the sample park: an `Execute` on the blocked tile of the empty park. -/
theorem execute_failed_placement_demolishes_witness :
    executeDryRunCost env (actionAt 64 64 0) (worldOf emptyPark) = some env.MONEY32_UNDEFINED ∧
    (created env (actionAt 64 64 0) (worldOf emptyPark)).1.1 = GameActions.Status.Ok ∧
    (∃ calls, (Execute env 1 (actionAt 64 64 0) (worldOf emptyPark)).trace = calls ++
      [Event.rideDemolish
        { rideIndex := (created env (actionAt 64 64 0) (worldOf emptyPark)).1.2
          modifyType := env.RIDE_MODIFY_DEMOLISH, flags := (actionAt 64 64 0).flags }]) ∧
    (∃ res, (Execute env 1 (actionAt 64 64 0) (worldOf emptyPark)).result = some res ∧
      res.Error = GameActions.Status.Disallowed) ∧
    env.ride_get_count (Execute env 1 (actionAt 64 64 0) (worldOf emptyPark)).world
      = env.ride_get_count (worldOf emptyPark) :=
  ⟨by decide,
    execute_failed_placement_demolishes env 1 (actionAt 64 64 0) (worldOf emptyPark)
      getRideHasId createAddsOneRide placementKeepsRides demolishRemovesOneRide
      (Or.inl (by decide))⟩

/-- C7 on the sample park: a `Query` on a free tile of the empty park costs 750. -/
theorem query_ok_iff_dry_run_cost_defined_witness :
    env.LocationValid (queryEntry (actionAt 32 32 0) (worldOf emptyPark)) (actionAt 32 32 0)._loc
      = true ∧
    (created env (actionAt 32 32 0) (queryEntry (actionAt 32 32 0) (worldOf emptyPark))).1.1
      = GameActions.Status.Ok ∧
    queryDryRunCost env (actionAt 32 32 0) (worldOf emptyPark) = some 750 ∧
    (Query env (actionAt 32 32 0) (worldOf emptyPark)).result.Error = GameActions.Status.Ok ∧
    (Query env (actionAt 32 32 0) (worldOf emptyPark)).result.Cost = 750 ∧
    (Query env (actionAt 32 32 0) (worldOf emptyPark)).result.Position = { x := 48, y := 48, z := 16 } :=
  ⟨by decide, by decide, by decide,
    (query_ok_iff_dry_run_cost_defined env (actionAt 32 32 0) (worldOf emptyPark)
      (by decide) (by decide)).1.2 ⟨750, by decide, by decide⟩,
    (query_ok_iff_dry_run_cost_defined env (actionAt 32 32 0) (worldOf emptyPark)
      (by decide) (by decide)).2.1 750 (by decide) (by decide)⟩

/-- C9 on the sample park: a `Query` off the map. -/
theorem query_invalid_location_submits_nothing_witness :
    env.LocationValid (queryEntry (actionAt (-32) 32 0) (worldOf emptyPark))
      (actionAt (-32) 32 0)._loc = false ∧
    (Query env (actionAt (-32) 32 0) (worldOf emptyPark)).result.Error
      = GameActions.Status.InvalidParameters ∧
    (Query env (actionAt (-32) 32 0) (worldOf emptyPark)).trace = [] ∧
    (Query env (actionAt (-32) 32 0) (worldOf emptyPark)).world
      = queryEntry (actionAt (-32) 32 0) (worldOf emptyPark) :=
  ⟨by decide,
    query_invalid_location_submits_nothing env (actionAt (-32) 32 0) (worldOf emptyPark)
      (by decide)⟩

/-- C10 on the sample park: `Query` and `Execute` in a park without room for a ride. -/
theorem create_failure_reported_as_no_free_elements_witness :
    (created env (actionAt 32 32 0) (worldOf fullPark)).1.1 = GameActions.Status.NoFreeElements ∧
    (Query env (actionAt 32 32 0) (worldOf fullPark)).result.Error
      = GameActions.Status.NoFreeElements ∧
    (Query env (actionAt 32 32 0) (worldOf fullPark)).trace.length = 1 ∧
    (∃ res, (Execute env 1 (actionAt 32 32 0) (worldOf fullPark)).result = some res ∧
      res.Error = GameActions.Status.NoFreeElements ∧
      res.ErrorTitle = env.STR_CANT_CREATE_NEW_RIDE_ATTRACTION) :=
  ⟨by decide,
    ((create_failure_reported_as_no_free_elements env 1 (actionAt 32 32 0) (worldOf fullPark)).1
      (by decide) (by decide)).1,
    by
      rw [((create_failure_reported_as_no_free_elements env 1 (actionAt 32 32 0)
        (worldOf fullPark)).1 (by decide) (by decide)).2.2]
      rfl,
    ((create_failure_reported_as_no_free_elements env 1 (actionAt 32 32 0) (worldOf fullPark)).2
      (by decide)).1⟩

/-- C6 (amended) on the sample park: the demolition submitted by a ghost `Query`. -/
theorem nested_flags_as_written_witness :
    Event.rideDemolish { rideIndex := 1, modifyType := 0, flags := 64 }
      ∈ (Query env (actionAt 32 32 64) (worldOf emptyPark)).trace
        ++ (Execute env 1 (actionAt 32 32 64) (worldOf emptyPark)).trace ∧
    ∃ f, (Event.rideDemolish { rideIndex := 1, modifyType := 0, flags := 64 }).submittedFlags
        = some f ∧ f = (actionAt 32 32 64).flags ∧
      InheritsFlags env.toConsts (actionAt 32 32 64).flags f :=
  ⟨by decide,
    (nested_flags_as_written env 1 (actionAt 32 32 64) (worldOf emptyPark)
      (Event.rideDemolish { rideIndex := 1, modifyType := 0, flags := 64 }) (by decide)).2.1 rfl⟩

theorem namingEntry_loopPark :
    namingEntry env (actionAt 32 32 0) (worldOf loopPark) = some (loopEntry.1, loopEntry.2) := rfl

/-- C5 on the sample park: with rides named "Loop" and "Loop 2" in the park, the ride
made from the design "Loop" is named "Loop 3". -/
theorem execute_names_ride_with_first_unused_candidate_witness :
    loopEntry.1.id = 3 ∧
    nameUsed loopEntry.2 3 "Loop" = true ∧ nameUsed loopEntry.2 3 "Loop 2" = true ∧
    nameUsed loopEntry.2 3 "Loop 3" = false ∧
    (∃ res, (Execute env 3 (actionAt 32 32 0) (worldOf loopPark)).result = some res ∧
      res.Error = GameActions.Status.Ok ∧ res.rideIndex = 3) ∧
    nameOf (Execute env 3 (actionAt 32 32 0) (worldOf loopPark)).world 3 = "Loop 3" :=
  ⟨by decide, by decide, by decide, by decide,
    (execute_names_ride_with_first_unused_candidate env 3 (actionAt 32 32 0) (worldOf loopPark)
      loopEntry.1 loopEntry.2 3 (fun w rideId name => nameUsed w rideId name = true) nameOf
      rideSetName_refused_iff rideSetName_refused_keeps rideSetName_accepted_names
      namingEntry_loopPark (by decide) (by decide) (by decide)
      (fun j h1 h2 => by interval_cases j <;> decide) (by decide)).1,
    (execute_names_ride_with_first_unused_candidate env 3 (actionAt 32 32 0) (worldOf loopPark)
      loopEntry.1 loopEntry.2 3 (fun w rideId name => nameUsed w rideId name = true) nameOf
      rideSetName_refused_iff rideSetName_refused_keeps rideSetName_accepted_names
      namingEntry_loopPark (by decide) (by decide) (by decide)
      (fun j h1 h2 => by interval_cases j <;> decide) (by decide)).2.2.1⟩

/-- C8 (amended) on the sample park: an `Execute` on a free tile of the empty park,
where the first name is accepted. -/
theorem execute_ok_iff_created_placed_and_named_witness :
    env.GetRideHasId ∧ env.PlacementKeepsRides ∧ env.ConfigurationKeepsRides ∧
    (Execute env 1 (actionAt 32 32 0) (worldOf emptyPark)).result = some (placedResult 1) ∧
    ((created env (actionAt 32 32 0) (worldOf emptyPark)).1.1 = GameActions.Status.Ok ∧
      (∃ c, durablePlacementCost env (actionAt 32 32 0) (worldOf emptyPark) = some c ∧
        c ≠ env.MONEY32_UNDEFINED) ∧
      ∃ ride wl n, namingEntry env (actionAt 32 32 0) (worldOf emptyPark) = some (ride, wl) ∧
        n < 1 ∧ AcceptedAfter env (actionAt 32 32 0) ride.id n 1 wl) ∧
    (placedResult 1).rideIndex = (created env (actionAt 32 32 0) (worldOf emptyPark)).1.2 ∧
    (env.get_ride (Execute env 1 (actionAt 32 32 0) (worldOf emptyPark)).world
      (placedResult 1).rideIndex).isSome = true ∧
    durablePlacementCost env (actionAt 32 32 0) (worldOf emptyPark) = some (placedResult 1).Cost :=
  ⟨getRideHasId, placementKeepsRides, configurationKeepsRides, by decide,
    (execute_ok_iff_created_placed_and_named env 1 (actionAt 32 32 0) (worldOf emptyPark)
      getRideHasId placementKeepsRides configurationKeepsRides).1.1
        ⟨placedResult 1, by decide, rfl⟩,
    (execute_ok_iff_created_placed_and_named env 1 (actionAt 32 32 0) (worldOf emptyPark)
      getRideHasId placementKeepsRides configurationKeepsRides).2.1
        (placedResult 1) (by decide) rfl⟩

end Sample

/-! ## The vehicle object of the design -/

namespace TrackDesignAction

variable {G : Type}

theorem Query_trace_head (env : Env G) (a : TrackDesignAction) (w : World G)
    (hv : env.LocationValid (queryEntry a w) a._loc = true) :
    (Query env a w).trace.head? = some (Event.rideCreate (rideCreateAction env a (queryEntry a w))
      (created env a (queryEntry a w)).1.1 (created env a (queryEntry a w)).1.2) := by
  by_cases hc : (created env a (queryEntry a w)).1.1 = GameActions.Status.Ok
  · cases hr : env.get_ride (created env a (queryEntry a w)).2
      (created env a (queryEntry a w)).1.2 with
    | none => rw [Query_of_notFound env a w hv hc hr]; rfl
    | some ride => rw [Query_of_found env a w ride hv hc hr]; rfl
  · rw [Query_of_createFailed env a w hv hc]; rfl

theorem Execute_trace_head (env : Env G) (fuel : Nat) (a : TrackDesignAction) (w : World G) :
    (Execute env fuel a w).trace.head? = some (Event.rideCreate (rideCreateAction env a w)
      (created env a w).1.1 (created env a w).1.2) := by
  by_cases hc : (created env a w).1.1 = GameActions.Status.Ok
  · cases hr : env.get_ride (created env a w).2 (created env a w).1.2 with
    | none => rw [Execute_of_notFound env fuel a w hc hr]; rfl
    | some ride =>
      by_cases hp : (durablePlace env a ride (dryRun env a ride (created env a w).2)).cost
          = env.MONEY32_UNDEFINED
      · rw [Execute_of_placementFailed env fuel a w ride hc hr hp]; rfl
      · rw [Execute_of_placed env fuel a w ride hc hr hp]; rfl
  · rw [Execute_of_createFailed env fuel a w hc]; rfl

/-- C11 does not hold as stated: in the sample park a `Query` of a design whose vehicle
object is not among the loaded objects returns status `Ok`, and so does a `Query` of a
design whose vehicle object is loaded but not researched while the ignore-research cheat
is off. -/
theorem query_ok_without_vehicle_object :
    (Sample.env.find_object_in_entry_group
        (queryEntry (Sample.actionWithVehicle 200) (Sample.worldOf Sample.emptyPark))
        (Sample.actionWithVehicle 200)._td.vehicle_object = none ∧
      (Query Sample.env (Sample.actionWithVehicle 200) (Sample.worldOf Sample.emptyPark)).result.Error
        = GameActions.Status.Ok) ∧
    (Sample.env.find_object_in_entry_group
        (queryEntry (Sample.actionWithVehicle 9) (Sample.worldOf Sample.emptyPark))
        (Sample.actionWithVehicle 9)._td.vehicle_object = some (0, 9) ∧
      Sample.env.ride_entry_is_invented
        (queryEntry (Sample.actionWithVehicle 9) (Sample.worldOf Sample.emptyPark)) 9 = false ∧
      Sample.env.gCheatsIgnoreResearchStatus
        (queryEntry (Sample.actionWithVehicle 9) (Sample.worldOf Sample.emptyPark)) = false ∧
      (Query Sample.env (Sample.actionWithVehicle 9) (Sample.worldOf Sample.emptyPark)).result.Error
        = GameActions.Status.Ok) := by
  decide

/-- C11, amended. A vehicle object that is not found, or is found but not researched
while the ignore-research cheat is off, is no error of its own: both phases force a
fallback and submit the ride creation with `OBJECT_ENTRY_INDEX_NULL` as sub-type.  A
vehicle object that is found and researched, or found while the cheat is on, is used:
its entry index is the sub-type of the ride creation.  In each case the ride creation
is the first call of `Execute`, and of `Query` when the location is valid. -/
theorem vehicle_object_fallback (env : Env G) (fuel : Nat) (a : TrackDesignAction) (w : World G) :
    (∀ w', env.find_object_in_entry_group w' a._td.vehicle_object = none →
      (rideCreateAction env a w').subType = env.OBJECT_ENTRY_INDEX_NULL) ∧
    (∀ w' found, env.find_object_in_entry_group w' a._td.vehicle_object = some found →
      env.ride_entry_is_invented w' found.2 = false →
      env.gCheatsIgnoreResearchStatus w' = false →
      (rideCreateAction env a w').subType = env.OBJECT_ENTRY_INDEX_NULL) ∧
    (∀ w' found, env.find_object_in_entry_group w' a._td.vehicle_object = some found →
      env.ride_entry_is_invented w' found.2 = true ∨ env.gCheatsIgnoreResearchStatus w' = true →
      (rideCreateAction env a w').subType = found.2) ∧
    (env.LocationValid (queryEntry a w) a._loc = true →
      ∃ error rideIndex, (Query env a w).trace.head?
        = some (Event.rideCreate (rideCreateAction env a (queryEntry a w)) error rideIndex)) ∧
    (∃ error rideIndex, (Execute env fuel a w).trace.head?
      = some (Event.rideCreate (rideCreateAction env a w) error rideIndex)) := by
  refine ⟨?_, ?_, ?_, fun hv => ⟨_, _, Query_trace_head env a w hv⟩,
    ⟨_, _, Execute_trace_head env fuel a w⟩⟩
  · intro w' h
    simp [rideCreateAction, entryIndex, h]
  · intro w' found h hi hcheat
    simp [rideCreateAction, entryIndex, h, hi, hcheat]
  · intro w' found h hor
    rcases hor with hi | hcheat
    · simp [rideCreateAction, entryIndex, h, hi]
    · simp [rideCreateAction, entryIndex, h, hcheat]

end TrackDesignAction

namespace Sample

open TrackDesignAction

/-- C11 (amended) on the sample park: with the cheat on, the loaded but not researched
vehicle object 9 is the sub-type of the ride creation; the object 200, which is not
loaded, gives the null index. -/
theorem vehicle_object_fallback_witness :
    env.find_object_in_entry_group (worldOf cheatPark) (actionWithVehicle 9)._td.vehicle_object
      = some (0, 9) ∧
    env.gCheatsIgnoreResearchStatus (worldOf cheatPark) = true ∧
    (rideCreateAction env (actionWithVehicle 9) (worldOf cheatPark)).subType = 9 ∧
    (rideCreateAction env (actionWithVehicle 200) (worldOf cheatPark)).subType
      = env.OBJECT_ENTRY_INDEX_NULL :=
  ⟨by decide, by decide,
    (vehicle_object_fallback env 1 (actionWithVehicle 9) (worldOf cheatPark)).2.2.1
      (worldOf cheatPark) (0, 9) (by decide) (Or.inr (by decide)),
    (vehicle_object_fallback env 1 (actionWithVehicle 200) (worldOf cheatPark)).1
      (worldOf cheatPark) (by decide)⟩

end Sample

namespace Scripting

variable {P V : Type}

/-- C12. Handle 0 is the invalid interval handle: `IsValid` is true exactly when `Handle`
is not 0, it takes the same value on two intervals with the same `Handle` whatever
their other fields, and a default-constructed `ScriptInterval` has `Handle` 0 and is
not valid. -/
theorem scriptInterval_valid_iff_handle_nonzero (interval : ScriptInterval P V)
    (owner : P) (delay : Nat) (lastTimestamp : Int) (callback : V) (isRepeat : Bool) :
    (interval.IsValid = true ↔ interval.Handle ≠ 0) ∧
    ScriptInterval.IsValid
        { Owner := owner, Handle := interval.Handle, Delay := delay
          LastTimestamp := lastTimestamp, Callback := callback, Repeat := isRepeat }
      = interval.IsValid ∧
    (ScriptInterval.defaultConstructed owner callback).Handle = 0 ∧
    (ScriptInterval.defaultConstructed owner callback).IsValid = false := by
  refine ⟨?_, rfl, rfl, ?_⟩
  · simp [ScriptInterval.IsValid]
  · simp [ScriptInterval.IsValid, ScriptInterval.defaultConstructed]

end Scripting

/-! ## The attempts of the naming loop -/

namespace TrackDesignAction

variable {G : Type}

theorem nameLoop_attempts (env : Env G) (a : TrackDesignAction) (rideId : ride_id_t) :
    ∀ (fuel count : Nat) (r : GameActions.Status) (w : World G), 1 ≤ count →
      (count = 1 ∨ r ≠ GameActions.Status.Ok) →
      ∃ statuses, (nameLoop env a rideId fuel count r w).trace
          = attemptEvents a rideId count statuses ∧
        (∀ status ∈ statuses.dropLast, status ≠ GameActions.Status.Ok) ∧
        ((nameLoop env a rideId fuel count r w).result = true ↔
          statuses.getLast? = some GameActions.Status.Ok) ∧
        ((nameLoop env a rideId fuel count r w).result = false → statuses.length = fuel) := by
  intro fuel
  induction fuel with
  | zero =>
    intro count r w _ hcond
    refine ⟨[], ?_, ?_, ?_, ?_⟩ <;> simp [nameLoop, hcond, attemptEvents]
  | succ fuel ih =>
    intro count r w hcount hcond
    by_cases hok : (env.ExecuteNestedRideSetName (rideSetNameAction a rideId count) w).1
        = GameActions.Status.Ok
    · refine ⟨[GameActions.Status.Ok], ?_, ?_, ?_, ?_⟩
      · simp only [nameLoop, if_pos hcond, hok]
        rw [nameLoop_done env a rideId fuel (count + 1) _ (by omega)]
        rfl
      · simp
      · simp only [nameLoop, if_pos hcond, hok]
        rw [nameLoop_done env a rideId fuel (count + 1) _ (by omega)]
        simp
      · simp only [nameLoop, if_pos hcond, hok]
        rw [nameLoop_done env a rideId fuel (count + 1) _ (by omega)]
        simp
    · obtain ⟨statuses, htrace, hinit, hlast, hlen⟩ :=
        ih (count + 1) _ (env.ExecuteNestedRideSetName (rideSetNameAction a rideId count) w).2
          (by omega) (Or.inr hok)
      refine ⟨(env.ExecuteNestedRideSetName (rideSetNameAction a rideId count) w).1 :: statuses,
        ?_, ?_, ?_, ?_⟩
      · simp only [nameLoop, if_pos hcond, htrace]
        rfl
      · cases statuses with
        | nil => simp
        | cons status rest =>
          intro st hst
          rw [List.dropLast_cons₂] at hst
          rcases List.mem_cons.1 hst with h | h
          · rw [h]
            exact hok
          · exact hinit st h
      · simp only [nameLoop, if_pos hcond]
        rw [hlast]
        cases statuses with
        | nil => simp [hok]
        | cons status rest => rw [List.getLast?_cons_cons]
      · simp only [nameLoop, if_pos hcond]
        intro h
        simp [hlen h]

theorem noSetName_dryRun (env : Env G) (a : TrackDesignAction) (ride : Ride) (w : World G) :
    ∀ e ∈ (dryRun env a ride w).trace, e.isSetName = false := by
  simp only [dryRun]
  split <;> simp [Event.isSetName]

theorem noSetName_durablePlace (env : Env G) (a : TrackDesignAction) (ride : Ride) (w : World G) :
    ∀ e ∈ (durablePlace env a ride (dryRun env a ride w)).trace, e.isSetName = false := by
  simp only [durablePlace]
  split
  · intro e he
    rcases List.mem_append.1 he with h | h
    · exact noSetName_dryRun env a ride w e h
    · rw [List.mem_singleton.1 h]
      rfl
  · exact noSetName_dryRun env a ride w

theorem noSetName_configureRide (env : Env G) (a : TrackDesignAction)
    (entryIndex : ObjectEntryIndex) (ride : Ride) (w : World G) :
    ∀ e ∈ (configureRide env a entryIndex ride w).2, e.isSetName = false := by
  simp only [configureRide, setOperatingSetting, setVehicle]
  split <;> simp [Event.isSetName]

/-- C13. When `Execute` gets as far as the naming loop, the calls it makes end with the
set-name attempts for `count = 1, 2, 3, ...` in this order, the unsuffixed name first,
and no set-name is submitted before them; every attempt but the last returned a status
other than `Ok`, whatever that status; `Execute` has returned exactly when the last
attempt returned `Ok`; and while it has not, it has made as many attempts as iterations
were allowed, so that no number of refusals makes it give up.  Hence `Execute` leaves
the loop, for some number of iterations, if and only if some attempt is accepted.  The
loop variable is modelled without overflow of its `int32_t`. -/
theorem naming_loop_retries_until_accepted (env : Env G) (fuel : Nat) (a : TrackDesignAction)
    (w : World G) (ride : Ride) (wl : World G) (hEntry : namingEntry env a w = some (ride, wl)) :
    (∃ calls statuses,
      (Execute env fuel a w).trace = calls ++ attemptEvents a ride.id 1 statuses ∧
      (∀ e ∈ calls, e.isSetName = false) ∧
      (∀ status ∈ statuses.dropLast, status ≠ GameActions.Status.Ok) ∧
      ((Execute env fuel a w).result.isSome = true ↔
        statuses.getLast? = some GameActions.Status.Ok) ∧
      ((Execute env fuel a w).result = none → statuses.length = fuel)) ∧
    (rideSetNameAction a ride.id 1).name = a._td.name ∧
    ((∃ fuel', (Execute env fuel' a w).result.isSome = true) ↔
      ∃ n, AcceptedAfter env a ride.id n 1 wl) := by
  obtain ⟨hride, hcost, rfl⟩ := namingEntry_eq_some env a w ride wl hEntry
  obtain ⟨hc, hr⟩ := createdRide_eq_some env a w ride hride
  have hsome : ∀ f, (Execute env f a w).result.isSome = true ↔
      (nameLoop env a ride.id f 1 (created env a w).1.1
        (env.updateRide ride.id (applyDesign env a)
          (configureRide env a (entryIndex env a w) ride
            (durablePlace env a ride (dryRun env a ride (created env a w).2)).world).1)).result
        = true := by
    intro f
    rw [Execute_of_placed env f a w ride hc hr hcost]
    simp only
    split <;> simp_all
  refine ⟨?_, rfl, ?_⟩
  · obtain ⟨statuses, htrace, hinit, hlast, hlen⟩ :=
      nameLoop_attempts env a ride.id fuel 1 (created env a w).1.1
        (env.updateRide ride.id (applyDesign env a)
          (configureRide env a (entryIndex env a w) ride
            (durablePlace env a ride (dryRun env a ride (created env a w).2)).world).1)
        (le_refl 1) (Or.inl rfl)
    refine ⟨[Event.rideCreate (rideCreateAction env a w) (created env a w).1.1
        (created env a w).1.2]
      ++ (durablePlace env a ride (dryRun env a ride (created env a w).2)).trace
      ++ (configureRide env a (entryIndex env a w) ride
          (durablePlace env a ride (dryRun env a ride (created env a w).2)).world).2,
      statuses, ?_, ?_, hinit, ?_, ?_⟩
    · rw [Execute_of_placed env fuel a w ride hc hr hcost, ← htrace]
    · intro e he
      simp only [List.mem_append, List.mem_singleton] at he
      rcases he with (h | h) | h
      · rw [h]
        rfl
      · exact noSetName_durablePlace env a ride _ e h
      · exact noSetName_configureRide env a _ ride _ e h
    · rw [hsome fuel, hlast]
    · intro hnone
      apply hlen
      have := hsome fuel
      rw [hnone] at this
      simpa using this
  · constructor
    · rintro ⟨f, hf⟩
      obtain ⟨n, -, hacc⟩ := nameLoop_finished env a ride.id f 1 _ _ (le_refl 1) (Or.inl rfl)
        ((hsome f).1 hf)
      exact ⟨n, hacc⟩
    · rintro ⟨n, hacc⟩
      refine ⟨n + 1, (hsome (n + 1)).2 ?_⟩
      exact (nameLoop_accepted env a ride.id n 1 _ _ (n + 1) (le_refl 1) (Or.inl rfl) hacc
        (by omega)).1

/-! ## The placement calls -/

theorem durablePlace_trace (env : Env G) (a : TrackDesignAction) (ride : Ride) (p : Placement G)
    (h : p.cost ≠ env.MONEY32_UNDEFINED) :
    (durablePlace env a ride p).trace = p.trace ++
      [Event.placeVirtualTrack (operation env.toConsts a.flags) p.placeScenery ride.id
        (env.place_virtual_track a._td (operation env.toConsts a.flags) p.placeScenery ride.id
          a._loc p.world).1] := by
  simp [durablePlace, h]

theorem durablePlace_of_undefined (env : Env G) (a : TrackDesignAction) (ride : Ride)
    (p : Placement G) (h : p.cost = env.MONEY32_UNDEFINED) : durablePlace env a ride p = p := by
  simp [durablePlace, h]

theorem noPlacement_configureRide (env : Env G) (a : TrackDesignAction)
    (entryIndex : ObjectEntryIndex) (ride : Ride) (w : World G) :
    ∀ e ∈ (configureRide env a entryIndex ride w).2, e.isPlacement = false := by
  simp only [configureRide, setOperatingSetting, setVehicle]
  split <;> simp [Event.isPlacement]

theorem noPlacement_nameLoop (env : Env G) (a : TrackDesignAction) (rideId : ride_id_t)
    (fuel count : Nat) (r : GameActions.Status) (w : World G) :
    ∀ e ∈ (nameLoop env a rideId fuel count r w).trace, e.isPlacement = false := by
  induction fuel generalizing count r w with
  | zero =>
    simp only [nameLoop]
    split <;> simp
  | succ fuel ih =>
    simp only [nameLoop]
    split
    · intro e he
      rcases List.mem_cons.1 he with h | h
      · rw [h]
        rfl
      · exact ih _ _ _ e h
    · simp

theorem Execute_trace_of_dryRun_defined (env : Env G) (fuel : Nat) (a : TrackDesignAction)
    (w : World G) (ride : Ride) (hride : createdRide env a w = some ride)
    (hdry : (dryRun env a ride (created env a w).2).cost ≠ env.MONEY32_UNDEFINED) :
    ∃ cost rest, (Execute env fuel a w).trace =
        [Event.rideCreate (rideCreateAction env a w) (created env a w).1.1 (created env a w).1.2]
        ++ (dryRun env a ride (created env a w).2).trace
        ++ Event.placeVirtualTrack (operation env.toConsts a.flags)
            (dryRun env a ride (created env a w).2).placeScenery ride.id cost :: rest ∧
      ∀ e ∈ rest, e.isPlacement = false := by
  obtain ⟨hc, hr⟩ := createdRide_eq_some env a w ride hride
  by_cases hp : (durablePlace env a ride (dryRun env a ride (created env a w).2)).cost
      = env.MONEY32_UNDEFINED
  · refine ⟨(env.place_virtual_track a._td (operation env.toConsts a.flags)
      (dryRun env a ride (created env a w).2).placeScenery ride.id a._loc
      (dryRun env a ride (created env a w).2).world).1,
      [Event.rideDemolish (rideDemolishAction env a ride)], ?_, ?_⟩
    · rw [Execute_of_placementFailed env fuel a w ride hc hr hp, durablePlace_trace env a ride _ hdry]
      simp
    · simp [Event.isPlacement]
  · refine ⟨(env.place_virtual_track a._td (operation env.toConsts a.flags)
      (dryRun env a ride (created env a w).2).placeScenery ride.id a._loc
      (dryRun env a ride (created env a w).2).world).1,
      (configureRide env a (entryIndex env a w) ride
        (durablePlace env a ride (dryRun env a ride (created env a w).2)).world).2
      ++ (nameLoop env a ride.id fuel 1 (created env a w).1.1
          (env.updateRide ride.id (applyDesign env a)
            (configureRide env a (entryIndex env a w) ride
              (durablePlace env a ride (dryRun env a ride (created env a w).2)).world).1)).trace,
      ?_, ?_⟩
    · rw [Execute_of_placed env fuel a w ride hc hr hp, durablePlace_trace env a ride _ hdry]
      simp
    · intro e he
      rcases List.mem_append.1 he with h | h
      · exact noPlacement_configureRide env a _ ride _ e h
      · exact noPlacement_nameLoop env a _ _ _ _ _ e h

theorem or_and_self_right (b r : Nat) : (b ||| r) &&& r = r := by
  apply Nat.eq_of_testBit_eq
  intro i
  rw [Nat.testBit_and, Nat.testBit_or]
  cases b.testBit i <;> cases r.testBit i <;> rfl

theorem ne_or_of_and_eq_zero (b b' r : Nat) (hr : r ≠ 0) (hb : b &&& r = 0) : b ≠ b' ||| r := by
  intro h
  apply hr
  rw [← or_and_self_right b' r, ← h, hb]

theorem or_right_injective_of_and_eq_zero (b b' r : Nat) (hb : b &&& r = 0) (hb' : b' &&& r = 0)
    (h : b ||| r = b' ||| r) : b = b' := by
  apply Nat.eq_of_testBit_eq
  intro i
  have h1 := congrArg (fun n => n.testBit i) h
  have h2 := congrArg (fun n => n.testBit i) hb
  have h3 := congrArg (fun n => n.testBit i) hb'
  simp only [Nat.testBit_or, Nat.testBit_and, Nat.zero_testBit] at h1 h2 h3
  revert h1 h2 h3
  cases b.testBit i <;> cases b'.testBit i <;> cases r.testBit i <;> simp

/-- C14. In `Execute`, when the ride was created and the last dry run returned a defined
cost, the call after the dry runs is the durable placement, made with the operation
`(ghost ? PTD_OPERATION_PLACE_GHOST : PTD_OPERATION_PLACE) | (replay ?
PTD_OPERATION_FLAG_IS_REPLAY : 0)`, where ghost and replay are the two flags of the
action: the replay bit is set in the operation iff the replay flag is set, and the four
operations of the four flag combinations are pairwise different.  The constants are
taken to be bytes, the two base operations different and the replay flag a non-zero
bit pattern disjoint from both. -/
theorem durable_placement_operation (env : Env G) (fuel : Nat) (a : TrackDesignAction)
    (w : World G) (ride : Ride) (hApart : env.toConsts.OperationsApart)
    (hride : createdRide env a w = some ride)
    (hdry : (dryRun env a ride (created env a w).2).cost ≠ env.MONEY32_UNDEFINED) :
    (∃ cost rest, (Execute env fuel a w).trace =
        [Event.rideCreate (rideCreateAction env a w) (created env a w).1.1 (created env a w).1.2]
        ++ (dryRun env a ride (created env a w).2).trace
        ++ Event.placeVirtualTrack (operation env.toConsts a.flags)
            (dryRun env a ride (created env a w).2).placeScenery ride.id cost :: rest ∧
      ∀ e ∈ rest, e.isPlacement = false) ∧
    operation env.toConsts a.flags =
      (if hasFlag a.flags env.GAME_COMMAND_FLAG_GHOST = true then env.PTD_OPERATION_PLACE_GHOST
        else env.PTD_OPERATION_PLACE) |||
      (if hasFlag a.flags env.GAME_COMMAND_FLAG_REPLAY = true then env.PTD_OPERATION_FLAG_IS_REPLAY
        else 0) ∧
    (operation env.toConsts a.flags &&& env.PTD_OPERATION_FLAG_IS_REPLAY ≠ 0 ↔
      hasFlag a.flags env.GAME_COMMAND_FLAG_REPLAY = true) ∧
    [env.PTD_OPERATION_PLACE, env.PTD_OPERATION_PLACE_GHOST,
      env.PTD_OPERATION_PLACE ||| env.PTD_OPERATION_FLAG_IS_REPLAY,
      env.PTD_OPERATION_PLACE_GHOST ||| env.PTD_OPERATION_FLAG_IS_REPLAY].Nodup := by
  obtain ⟨hP, hGh, hR, hne, hR0, hPR, hGR⟩ := hApart
  have hmodP : (env.PTD_OPERATION_PLACE ||| env.PTD_OPERATION_FLAG_IS_REPLAY) % 256
      = env.PTD_OPERATION_PLACE ||| env.PTD_OPERATION_FLAG_IS_REPLAY :=
    Nat.mod_eq_of_lt (Nat.or_lt_two_pow (n := 8) hP hR)
  have hmodG : (env.PTD_OPERATION_PLACE_GHOST ||| env.PTD_OPERATION_FLAG_IS_REPLAY) % 256
      = env.PTD_OPERATION_PLACE_GHOST ||| env.PTD_OPERATION_FLAG_IS_REPLAY :=
    Nat.mod_eq_of_lt (Nat.or_lt_two_pow (n := 8) hGh hR)
  refine ⟨Execute_trace_of_dryRun_defined env fuel a w ride hride hdry, ?_, ?_, ?_⟩
  · by_cases hg : a.flags &&& env.GAME_COMMAND_FLAG_GHOST = 0 <;>
      by_cases hr : a.flags &&& env.GAME_COMMAND_FLAG_REPLAY = 0 <;>
      simp [operation, hasFlag, hg, hr, hmodP, hmodG]
  · by_cases hg : a.flags &&& env.GAME_COMMAND_FLAG_GHOST = 0 <;>
      by_cases hr : a.flags &&& env.GAME_COMMAND_FLAG_REPLAY = 0 <;>
      simp [operation, hasFlag, hg, hr, hmodP, hmodG, hPR, hGR, or_and_self_right, hR0]
  · simp only [List.nodup_cons, List.mem_cons, List.mem_singleton, List.not_mem_nil,
      not_or, List.nodup_nil, or_false, not_false_eq_true, and_true]
    refine ⟨⟨hne, ne_or_of_and_eq_zero _ _ _ hR0 hPR, ne_or_of_and_eq_zero _ _ _ hR0 hPR⟩,
      ⟨ne_or_of_and_eq_zero _ _ _ hR0 hGR, ne_or_of_and_eq_zero _ _ _ hR0 hGR⟩, ?_⟩
    intro h
    exact hne (or_right_injective_of_and_eq_zero _ _ _ hPR hGR h)

theorem dryRun_eq (env : Env G) (a : TrackDesignAction) (ride : Ride) (w : World G) :
    (dryRun env a ride w).trace =
      Event.placeVirtualTrack env.PTD_OPERATION_PLACE_QUERY true ride.id (firstDryRun env a ride w).1
        :: (if sceneryUnavailable env a ride w = true then
            [Event.placeVirtualTrack env.PTD_OPERATION_PLACE_QUERY false ride.id
              (secondDryRun env a ride w).1]
          else []) ∧
    (dryRun env a ride w).cost =
      (if sceneryUnavailable env a ride w = true then (secondDryRun env a ride w).1
        else (firstDryRun env a ride w).1) ∧
    (dryRun env a ride w).placeScenery = !sceneryUnavailable env a ride w := by
  by_cases h : (env.place_virtual_track a._td env.PTD_OPERATION_PLACE_QUERY true ride.id a._loc
      w).2._trackDesignPlaceStateSceneryUnavailable = true
  · simp [dryRun, sceneryUnavailable, firstDryRun, secondDryRun, h]
  · simp [dryRun, sceneryUnavailable, firstDryRun, secondDryRun, h]

/-- C16. In both phases the placement is first tried as a dry run with scenery; a second
dry run, without scenery, is made exactly when the first one left
`_trackDesignPlaceStateSceneryUnavailable` set, and then its cost is the cost used;
these are the only placement calls of `Query`.  In `Execute`, when the last dry run
returned a defined cost, the next call is the durable placement, made with the
place-scenery choice of the last dry run (without scenery iff the first dry run reported
the scenery unavailable), and it is the last placement call; when the last dry run
returned `MONEY32_UNDEFINED`, no durable placement is made. -/
theorem dry_run_repeated_without_scenery (env : Env G) (fuel : Nat) (a : TrackDesignAction)
    (w : World G) :
    (∀ ride w',
      (dryRun env a ride w').trace =
        Event.placeVirtualTrack env.PTD_OPERATION_PLACE_QUERY true ride.id
            (firstDryRun env a ride w').1
          :: (if sceneryUnavailable env a ride w' = true then
              [Event.placeVirtualTrack env.PTD_OPERATION_PLACE_QUERY false ride.id
                (secondDryRun env a ride w').1]
            else []) ∧
      (dryRun env a ride w').cost =
        (if sceneryUnavailable env a ride w' = true then (secondDryRun env a ride w').1
          else (firstDryRun env a ride w').1) ∧
      (dryRun env a ride w').placeScenery = !sceneryUnavailable env a ride w') ∧
    (∀ ride, env.LocationValid (queryEntry a w) a._loc = true →
      createdRide env a (queryEntry a w) = some ride →
      (Query env a w).trace =
        [Event.rideCreate (rideCreateAction env a (queryEntry a w))
          (created env a (queryEntry a w)).1.1 (created env a (queryEntry a w)).1.2]
        ++ (dryRun env a ride (created env a (queryEntry a w)).2).trace
        ++ [Event.rideDemolish (rideDemolishAction env a ride)]) ∧
    (∀ ride, createdRide env a w = some ride →
      ((dryRun env a ride (created env a w).2).cost ≠ env.MONEY32_UNDEFINED →
        ∃ cost rest, (Execute env fuel a w).trace =
            [Event.rideCreate (rideCreateAction env a w) (created env a w).1.1
              (created env a w).1.2]
            ++ (dryRun env a ride (created env a w).2).trace
            ++ Event.placeVirtualTrack (operation env.toConsts a.flags)
                (!sceneryUnavailable env a ride (created env a w).2) ride.id cost :: rest ∧
          ∀ e ∈ rest, e.isPlacement = false) ∧
      ((dryRun env a ride (created env a w).2).cost = env.MONEY32_UNDEFINED →
        (Execute env fuel a w).trace =
          [Event.rideCreate (rideCreateAction env a w) (created env a w).1.1
            (created env a w).1.2]
          ++ (dryRun env a ride (created env a w).2).trace
          ++ [Event.rideDemolish (rideDemolishAction env a ride)])) := by
  refine ⟨fun ride w' => dryRun_eq env a ride w', ?_, ?_⟩
  · intro ride hv hride
    obtain ⟨hc, hr⟩ := createdRide_eq_some env a _ ride hride
    rw [Query_of_found env a w ride hv hc hr]
  · intro ride hride
    obtain ⟨hc, hr⟩ := createdRide_eq_some env a w ride hride
    constructor
    · intro hdry
      rw [← (dryRun_eq env a ride (created env a w).2).2.2]
      exact Execute_trace_of_dryRun_defined env fuel a w ride hride hdry
    · intro hdry
      have hp : (durablePlace env a ride (dryRun env a ride (created env a w).2)).cost
          = env.MONEY32_UNDEFINED := by
        rw [durablePlace_of_undefined env a ride _ hdry]
        exact hdry
      rw [Execute_of_placementFailed env fuel a w ride hc hr hp,
        durablePlace_of_undefined env a ride _ hdry]

/-! ## The vehicle colours -/

theorem foldl_copyTrackColour_vehicle_colours (td : TrackDesign) (l : List Nat) (ride : Ride) :
    (l.foldl (copyTrackColour td) ride).vehicle_colours = ride.vehicle_colours := by
  induction l generalizing ride with
  | nil => rfl
  | cons i l ih =>
    rw [List.foldl_cons, ih]
    rfl

theorem foldl_copyVehicleColour_length (td : TrackDesign) (l : List Nat) (ride : Ride) :
    (l.foldl (copyVehicleColour td) ride).vehicle_colours.length = ride.vehicle_colours.length := by
  induction l generalizing ride with
  | nil => rfl
  | cons i l ih =>
    rw [List.foldl_cons, ih]
    simp [copyVehicleColour]

theorem foldl_copyVehicleColour_get (td : TrackDesign) (n : Nat) (ride : Ride) (i : Nat)
    (hi : i < n) (hlen : n ≤ ride.vehicle_colours.length) :
    ((List.range n).foldl (copyVehicleColour td) ride).vehicle_colours[i]? =
      some
        { Body := (td.vehicle_colours.getD (tdIndex td i)
            { body_colour := 0, trim_colour := 0 }).body_colour
          Trim := (td.vehicle_colours.getD (tdIndex td i)
            { body_colour := 0, trim_colour := 0 }).trim_colour
          Ternary := td.vehicle_additional_colour.getD (tdIndex td i) 0 } := by
  induction n with
  | zero => omega
  | succ n ih =>
    rw [List.range_succ, List.foldl_append]
    simp only [List.foldl_cons, List.foldl_nil]
    by_cases hin : i = n
    · subst hin
      simp only [copyVehicleColour]
      rw [List.getElem?_set_self]
      rw [foldl_copyVehicleColour_length]
      omega
    · simp only [copyVehicleColour]
      rw [List.getElem?_set_ne (fun h => hin h.symm)]
      exact ih (by omega) (by omega)

/-- C15. In the vehicle-colour copy of `Execute`, for every `i` from 0 to
`MAX_VEHICLES_PER_RIDE` the index `tdIndex` used to read the design's `vehicle_colours`
and `vehicle_additional_colour` is `min(i, N - 1)`, with `N ≥ 1` the length of
`vehicle_colours` (a `size_t`, and also the length of `vehicle_additional_colour`): it
is below `N`, it is `i` for `i < N` and `N - 1` for `i ≥ N`, both arrays have an entry
there, and slot `i` of the ride's `vehicle_colours` (an array with room for
`MAX_VEHICLES_PER_RIDE + 1` entries) receives the body and trim colour and the
additional colour of that entry. -/
theorem vehicle_colour_index_in_range (env : Env G) (a : TrackDesignAction) (ride : Ride)
    (i : Nat) (hN : 1 ≤ a._td.vehicle_colours.length)
    (hsize : a._td.vehicle_colours.length < 2 ^ 64)
    (hadd : a._td.vehicle_additional_colour.length = a._td.vehicle_colours.length)
    (hi : i ≤ env.MAX_VEHICLES_PER_RIDE)
    (hlen : env.MAX_VEHICLES_PER_RIDE
      < (env.SetToDefaultInspectionInterval ride).vehicle_colours.length) :
    tdIndex a._td i = min i (a._td.vehicle_colours.length - 1) ∧
    tdIndex a._td i < a._td.vehicle_colours.length ∧
    tdIndex a._td i < a._td.vehicle_additional_colour.length ∧
    (i < a._td.vehicle_colours.length → tdIndex a._td i = i) ∧
    (a._td.vehicle_colours.length ≤ i → tdIndex a._td i = a._td.vehicle_colours.length - 1) ∧
    ∃ colour additional,
      a._td.vehicle_colours[tdIndex a._td i]? = some colour ∧
      a._td.vehicle_additional_colour[tdIndex a._td i]? = some additional ∧
      (applyDesign env a ride).vehicle_colours[i]? =
        some { Body := colour.body_colour, Trim := colour.trim_colour, Ternary := additional } := by
  have hmod : (a._td.vehicle_colours.length + 2 ^ 64 - 1) % 2 ^ 64
      = a._td.vehicle_colours.length - 1 := by
    omega
  have hidx : tdIndex a._td i = min i (a._td.vehicle_colours.length - 1) := by
    rw [tdIndex, hmod]
  have hlt : tdIndex a._td i < a._td.vehicle_colours.length := by
    rw [hidx]
    omega
  refine ⟨hidx, hlt, by omega, fun h => by rw [hidx]; omega, fun h => by rw [hidx]; omega, ?_⟩
  obtain ⟨colour, hcolour⟩ : ∃ c, a._td.vehicle_colours[tdIndex a._td i]? = some c :=
    ⟨_, List.getElem?_eq_getElem hlt⟩
  obtain ⟨additional, hadditional⟩ :
      ∃ c, a._td.vehicle_additional_colour[tdIndex a._td i]? = some c :=
    ⟨_, List.getElem?_eq_getElem (by omega)⟩
  refine ⟨colour, additional, hcolour, hadditional, ?_⟩
  have hget := foldl_copyVehicleColour_get a._td (env.MAX_VEHICLES_PER_RIDE + 1)
    ((List.range env.RCT12_NUM_COLOUR_SCHEMES).foldl (copyTrackColour a._td)
      { env.SetToDefaultInspectionInterval ride with
        lifecycle_flags := (env.SetToDefaultInspectionInterval ride).lifecycle_flags
          ||| env.RIDE_LIFECYCLE_NOT_CUSTOM_DESIGN
        colour_scheme_type := a._td.colour_scheme
        entrance_style := a._td.entrance_style }) i (by omega)
    (by rw [foldl_copyTrackColour_vehicle_colours]; exact hlen)
  rw [List.getD_eq_getElem?_getD, List.getD_eq_getElem?_getD, hcolour, hadditional] at hget
  exact hget

end TrackDesignAction

namespace Sample

open TrackDesignAction

/-- C13 on the sample park: with "Loop" and "Loop 2" taken, two iterations leave
`Execute` inside the loop after two refused attempts. -/
theorem naming_loop_retries_until_accepted_witness :
    namingEntry env (actionAt 32 32 0) (worldOf loopPark) = some (loopEntry.1, loopEntry.2) ∧
    (Execute env 2 (actionAt 32 32 0) (worldOf loopPark)).result = none ∧
    (∃ calls statuses,
      (Execute env 2 (actionAt 32 32 0) (worldOf loopPark)).trace
        = calls ++ attemptEvents (actionAt 32 32 0) loopEntry.1.id 1 statuses ∧
      (∀ e ∈ calls, e.isSetName = false) ∧
      (∀ status ∈ statuses.dropLast, status ≠ GameActions.Status.Ok) ∧
      ((Execute env 2 (actionAt 32 32 0) (worldOf loopPark)).result.isSome = true ↔
        statuses.getLast? = some GameActions.Status.Ok) ∧
      ((Execute env 2 (actionAt 32 32 0) (worldOf loopPark)).result = none →
        statuses.length = 2)) ∧
    ((∃ fuel', (Execute env fuel' (actionAt 32 32 0) (worldOf loopPark)).result.isSome = true) ↔
      ∃ n, AcceptedAfter env (actionAt 32 32 0) loopEntry.1.id n 1 loopEntry.2) :=
  ⟨namingEntry_loopPark, by decide,
    (naming_loop_retries_until_accepted env 2 (actionAt 32 32 0) (worldOf loopPark)
      loopEntry.1 loopEntry.2 namingEntry_loopPark).1,
    (naming_loop_retries_until_accepted env 2 (actionAt 32 32 0) (worldOf loopPark)
      loopEntry.1 loopEntry.2 namingEntry_loopPark).2.2⟩

theorem operationsApart_consts : env.toConsts.OperationsApart := by
  unfold Consts.OperationsApart
  decide

/-- C14 on the sample park: an `Execute` with the ghost and the replay flag set places
with `PTD_OPERATION_PLACE_GHOST | PTD_OPERATION_FLAG_IS_REPLAY`. -/
theorem durable_placement_operation_witness :
    env.toConsts.OperationsApart ∧
    createdRide env (actionAt 32 32 66) (worldOf emptyPark) = some (newRide 1).ride ∧
    (dryRun env (actionAt 32 32 66) (newRide 1).ride
      (created env (actionAt 32 32 66) (worldOf emptyPark)).2).cost ≠ env.MONEY32_UNDEFINED ∧
    operation env.toConsts (actionAt 32 32 66).flags = 4 ||| 128 ∧
    (operation env.toConsts (actionAt 32 32 66).flags &&& env.PTD_OPERATION_FLAG_IS_REPLAY ≠ 0 ↔
      hasFlag (actionAt 32 32 66).flags env.GAME_COMMAND_FLAG_REPLAY = true) ∧
    [2, 4, 2 ||| 128, 4 ||| 128].Nodup :=
  ⟨operationsApart_consts, by decide, by decide,
    (durable_placement_operation env 1 (actionAt 32 32 66) (worldOf emptyPark) (newRide 1).ride
      operationsApart_consts (by decide) (by decide)).2.1,
    (durable_placement_operation env 1 (actionAt 32 32 66) (worldOf emptyPark) (newRide 1).ride
      operationsApart_consts (by decide) (by decide)).2.2.1,
    (durable_placement_operation env 1 (actionAt 32 32 66) (worldOf emptyPark) (newRide 1).ride
      operationsApart_consts (by decide) (by decide)).2.2.2⟩

/-- C15 on the sample park: the design has two vehicle colours, so slot 5 of the ride
reads entry 1, the last one. -/
theorem vehicle_colour_index_in_range_witness :
    1 ≤ design.vehicle_colours.length ∧
    design.vehicle_additional_colour.length = design.vehicle_colours.length ∧
    5 ≤ env.MAX_VEHICLES_PER_RIDE ∧
    env.MAX_VEHICLES_PER_RIDE
      < (env.SetToDefaultInspectionInterval (newRide 1).ride).vehicle_colours.length ∧
    tdIndex (actionAt 32 32 0)._td 5 = min 5 ((actionAt 32 32 0)._td.vehicle_colours.length - 1) ∧
    tdIndex (actionAt 32 32 0)._td 5 < (actionAt 32 32 0)._td.vehicle_colours.length ∧
    (∃ colour additional,
      (actionAt 32 32 0)._td.vehicle_colours[tdIndex (actionAt 32 32 0)._td 5]? = some colour ∧
      (actionAt 32 32 0)._td.vehicle_additional_colour[tdIndex (actionAt 32 32 0)._td 5]?
        = some additional ∧
      (applyDesign env (actionAt 32 32 0) (newRide 1).ride).vehicle_colours[5]? =
        some { Body := colour.body_colour, Trim := colour.trim_colour, Ternary := additional }) :=
  ⟨by decide, by decide, by decide, by decide,
    (vehicle_colour_index_in_range env (actionAt 32 32 0) (newRide 1).ride 5
      (by decide) (by decide) (by decide) (by decide) (by decide)).1,
    (vehicle_colour_index_in_range env (actionAt 32 32 0) (newRide 1).ride 5
      (by decide) (by decide) (by decide) (by decide) (by decide)).2.1,
    (vehicle_colour_index_in_range env (actionAt 32 32 0) (newRide 1).ride 5
      (by decide) (by decide) (by decide) (by decide) (by decide)).2.2.2.2.2⟩

/-- C16 on the sample park: where the scenery is missing, the dry run is repeated
without scenery and `Query` makes both calls between the creation and the demolition. -/
theorem dry_run_repeated_without_scenery_witness :
    sceneryUnavailable env (actionAt 32 32 0) (newRide 1).ride
      (created env (actionAt 32 32 0) (queryEntry (actionAt 32 32 0) bareParkWorld)).2 = true ∧
    (dryRun env (actionAt 32 32 0) (newRide 1).ride
      (created env (actionAt 32 32 0) (queryEntry (actionAt 32 32 0) bareParkWorld)).2).placeScenery
      = !sceneryUnavailable env (actionAt 32 32 0) (newRide 1).ride
        (created env (actionAt 32 32 0) (queryEntry (actionAt 32 32 0) bareParkWorld)).2 ∧
    (Query env (actionAt 32 32 0) bareParkWorld).trace =
      [Event.rideCreate (rideCreateAction env (actionAt 32 32 0)
          (queryEntry (actionAt 32 32 0) bareParkWorld))
        (created env (actionAt 32 32 0) (queryEntry (actionAt 32 32 0) bareParkWorld)).1.1
        (created env (actionAt 32 32 0) (queryEntry (actionAt 32 32 0) bareParkWorld)).1.2]
      ++ (dryRun env (actionAt 32 32 0) (newRide 1).ride
          (created env (actionAt 32 32 0) (queryEntry (actionAt 32 32 0) bareParkWorld)).2).trace
      ++ [Event.rideDemolish (rideDemolishAction env (actionAt 32 32 0) (newRide 1).ride)] :=
  ⟨by decide,
    ((dry_run_repeated_without_scenery env 1 (actionAt 32 32 0) bareParkWorld).1
      (newRide 1).ride _).2.2,
    (dry_run_repeated_without_scenery env 1 (actionAt 32 32 0) bareParkWorld).2.1
      (newRide 1).ride (by decide) (by decide)⟩

theorem not_acceptedAfter_unnameableEnv (a : TrackDesignAction) (rideId : ride_id_t) :
    ∀ (n count : Nat) (w : World Park), ¬ AcceptedAfter unnameableEnv a rideId n count w := by
  intro n
  induction n with
  | zero =>
    intro count w h
    simp [AcceptedAfter, unnameableEnv] at h
  | succ n ih =>
    intro count w h
    exact ih _ _ h.2

theorem configurationKeepsRides_unnameableEnv : unnameableEnv.ConfigurationKeepsRides where
  setVehicle := configurationKeepsRides.setVehicle
  setSetting := configurationKeepsRides.setSetting
  update := configurationKeepsRides.update
  setName := fun _ _ _ h => h

/-- C8 does not hold as stated: in the sample park with a ride naming that refuses every
name, the other collaborators keeping their contracts, the nested ride creation
succeeds and the durable placement returns the defined cost 750, yet `Execute` returns
nothing, however many iterations of the naming loop are allowed. -/
theorem execute_never_returns_when_every_name_is_refused :
    unnameableEnv.GetRideHasId ∧ unnameableEnv.PlacementKeepsRides ∧
    unnameableEnv.ConfigurationKeepsRides ∧
    (created unnameableEnv (actionAt 32 32 0) (worldOf emptyPark)).1.1 = GameActions.Status.Ok ∧
    durablePlacementCost unnameableEnv (actionAt 32 32 0) (worldOf emptyPark) = some 750 ∧
    (750 : money32) ≠ unnameableEnv.MONEY32_UNDEFINED ∧
    ¬ ∃ fuel res, (Execute unnameableEnv fuel (actionAt 32 32 0) (worldOf emptyPark)).result
      = some res := by
  refine ⟨getRideHasId, placementKeepsRides, configurationKeepsRides_unnameableEnv, by decide,
    by decide, by decide, ?_⟩
  rintro ⟨fuel, res, hres⟩
  have hnone := Execute_none_of_never_accepted unnameableEnv fuel (actionAt 32 32 0)
    (worldOf emptyPark) (newRide 1).ride _
    (namingEntry_of_found unnameableEnv (actionAt 32 32 0) (worldOf emptyPark) (newRide 1).ride
      (by decide) (by decide))
    (fun n => not_acceptedAfter_unnameableEnv _ _ n 1 _)
  rw [hnone] at hres
  cases hres

end Sample

end OpenRCT2
